import Mathlib

/-!
Shallow embedding of the NexTicket Ticket_and_Order_Service core
(seat locking, order finalization, cleanup, payment webhook), translated
from `src/models.py`, `src/Order/services/order_service.py`,
`src/Order/services/ticket_locking_service.py`,
`src/Order/services/order_cleanup_service.py`,
`src/Order/services/transaction_service.py`,
`src/Payment/services/payment_order_service.py`,
`src/Payment/routers/stripe_webhook.py` and `src/utils/seat_utils.py`.

Conventions of the embedding:
* time is a `Nat` of epoch seconds; every operation receives the single
  `now` at which all its `datetime.now(timezone.utc)` calls are read;
* the relational store is a record of lists (`DB`); `session.get` by
  primary key is `List.find?`; a committed transaction is a returned `DB`,
  a rollback returns the caller's original `DB`;
* Redis is a record of association lists (`Redis`); native TTL expiry is
  not modelled (all the code paths proved about compare the stored
  `expires_at` against `now` themselves, exactly as the Python does);
* external effects are injected as explicit arguments: the result of
  `StripeService.verify_payment_success` is a `Bool`, the outcome of
  `StripeService.create_payment_intent` is a `StripeOutcome`, and the
  possible infrastructure failures (Redis pipeline, order commit,
  the commit inside `TransactionService`) are `Bool` flags;
* generator-assigned opaque identifiers (`uuid4`) are modelled as values
  guaranteed fresh: new transaction ids are `max existing + 1`, new order
  ids are passed in explicitly.
-/

namespace NexTicket

/-- `models.OrderStatus`. -/
inductive OrderStatus
  | pending
  | cancelled
  | completed
  | expired
deriving DecidableEq, Repr

/-- `models.TransactionStatus`. -/
inductive TransactionStatus
  | pending
  | success
  | failed
  | refunded
deriving DecidableEq, Repr

/-- `models.SeatID`: a seat identified by section, row and column.
`section` is a Lean keyword, so the field is named `sect`. -/
structure SeatID where
  sect : String
  row_id : Int
  col_id : Int
deriving DecidableEq, Repr

/-- `SeatID.to_string`: the canonical Redis key component of a seat. -/
def SeatID.to_string (s : SeatID) : String :=
  s.sect ++ ":R" ++ toString s.row_id ++ ":C" ++ toString s.col_id

/-- `utils.seat_utils.seats_equal` (structural equality on the three fields). -/
def seats_equal (a b : SeatID) : Bool :=
  a.sect == b.sect && a.row_id == b.row_id && a.col_id == b.col_id

/-- `utils.seat_utils.find_seat_in_list`: index of the seat, `-1` if absent. -/
def find_seat_in_list (s : SeatID) (l : List SeatID) : Int :=
  go l 0
where
  go : List SeatID → Int → Int
    | [], _ => -1
    | x :: xs, i => if seats_equal s x then i else go xs (i + 1)

/-- `utils.seat_utils.remove_seats_from_list`. -/
def remove_seats_from_list (seats_to_remove l : List SeatID) : List SeatID :=
  l.filter (fun s => find_seat_in_list s seats_to_remove == -1)

/-- `utils.seat_utils.seats_in_list`: the requested seats that occur in the list. -/
def seats_in_list (seats l : List SeatID) : List SeatID :=
  seats.filter (fun s => find_seat_in_list s l != -1)

/-- A stored seat-list JSON column (`SeatOrder.seat_ids`): either parseable
to a list of seats, or malformed text on which `json.loads` raises. -/
inductive SeatIdsJson
  | valid (seats : List SeatID)
  | malformed (raw : String)
deriving DecidableEq, Repr

/-- A stored single-seat JSON column (`UserTicket.seat_id`): either
parseable (`get_seat_object` succeeds) or malformed (it raises). -/
inductive StoredSeat
  | valid (s : SeatID)
  | invalid (raw : String)
deriving DecidableEq, Repr

/-- `models.BulkTicket` (the priced tier with its available-seat counter).
`seat_prefix` is renamed `seat_pref`. -/
structure BulkTicket where
  id : Nat
  event_id : Nat
  venue_id : Nat
  seat_type : String
  price : Int
  total_seats : Int
  available_seats : Int
  seat_pref : String
deriving DecidableEq, Repr

/-- The two shapes of the free-form `UserOrder.notes` JSON the services
write: the seat-assignment snapshot written at lock time, and the
cancellation note written by unlock/cleanup. -/
inductive OrderNotes
  | seatAssignmentsNote (assignments : List (Nat × List SeatID)) (order_id : String)
  | cancellationNote (reason : String) (cancelled_at : Nat)
deriving DecidableEq, Repr

/-- `models.UserOrder`. -/
structure UserOrder where
  id : String
  order_reference : String
  firebase_uid : String
  total_amount : Int
  status : OrderStatus
  notes : Option OrderNotes
  payment_intent_id : Option String
  stripe_payment_id : Option String
  service_fee : Int
  created_at : Nat
  updated_at : Option Nat
  completed_at : Option Nat
deriving DecidableEq, Repr

/-- The QR payload `complete_order` serialises into `qr_code_data`. -/
structure QrData where
  ticket_id : String
  event_id : Nat
  venue_id : Nat
  seat : SeatID
  firebase_uid : String
  order_ref : String
deriving DecidableEq, Repr

/-- `models.UserTicket`. -/
structure UserTicket where
  order_id : String
  bulk_ticket_id : Nat
  firebase_uid : String
  seat_id : StoredSeat
  price_paid : Int
  status : String
  qr_code_data : Option QrData
  created_at : Nat
deriving DecidableEq, Repr

/-- `models.Transactions`. The Python `transaction_id` is a uuid-derived
string; it is modelled as a `Nat` so that freshness of generated ids is a
theorem instead of a probabilistic assumption. -/
structure Transactions where
  transaction_id : Nat
  order_id : String
  amount : Int
  payment_method : String
  transaction_reference : Option String
  status : TransactionStatus
  created_at : Nat
  updated_at : Option Nat
deriving DecidableEq, Repr

/-- `models.SeatOrder`: the durable seat assignment of an order, grouped
by bulk ticket. -/
structure SeatOrder where
  id : Nat
  order_id : String
  event_id : Nat
  venue_id : Nat
  bulk_ticket_id : Nat
  seat_ids : SeatIdsJson
deriving DecidableEq, Repr

/-- The durable relational state. -/
structure DB where
  orders : List UserOrder
  tickets : List UserTicket
  transactions : List Transactions
  seatOrders : List SeatOrder
  bulkTickets : List BulkTicket
deriving DecidableEq, Repr

/-- `session.get(UserOrder, order_id)`. -/
def DB.getOrder (db : DB) (oid : String) : Option UserOrder :=
  db.orders.find? (fun o => o.id == oid)

/-- Writing back a mutated persistent order row (keyed by primary key). -/
def DB.setOrder (db : DB) (o : UserOrder) : DB :=
  { db with orders := db.orders.map (fun x => if x.id == o.id then o else x) }

/-- `session.get(BulkTicket, id)`. -/
def DB.getBulkTicket (db : DB) (i : Nat) : Option BulkTicket :=
  db.bulkTickets.find? (fun b => b.id == i)

/-- `select(UserTicket).where(UserTicket.order_id == order_id)`. -/
def DB.orderTickets (db : DB) (oid : String) : List UserTicket :=
  db.tickets.filter (fun t => t.order_id == oid)

/-- `TransactionService.get_order_transactions`. -/
def DB.orderTransactions (db : DB) (oid : String) : List Transactions :=
  db.transactions.filter (fun t => t.order_id == oid)

/-- `select(Transactions).where(...order_id...).first()`. -/
def DB.firstTransaction (db : DB) (oid : String) : Option Transactions :=
  db.transactions.find? (fun t => t.order_id == oid)

/-- `select(SeatOrder).where(SeatOrder.order_id == order_id)`. -/
def DB.orderSeatAssignments (db : DB) (oid : String) : List SeatOrder :=
  db.seatOrders.filter (fun sa => sa.order_id == oid)

/-- A transaction id distinct from every id already present (the model of
drawing a fresh uuid). -/
def freshTxnId (db : DB) : Nat :=
  (db.transactions.map (fun t => t.transaction_id)).foldr max 0 + 1

/-- `TransactionService.create_transaction`: verifies the order exists
(returning `none` like the Python service when it does not), then inserts
and commits a new transaction row. Internal errors are swallowed by the
service, so no error escapes. -/
def create_transaction (db : DB) (oid : String) (amount : Int) (method : String)
    (ref : Option String) (st : TransactionStatus) (now : Nat) :
    DB × Option Transactions :=
  match db.getOrder oid with
  | none => (db, none)
  | some _ =>
    let t : Transactions :=
      { transaction_id := freshTxnId db, order_id := oid, amount := amount,
        payment_method := method, transaction_reference := ref, status := st,
        created_at := now, updated_at := none }
    ({ db with transactions := db.transactions ++ [t] }, some t)

/-- `TransactionService.update_transaction_status`: finds the row by
transaction id, updates status, timestamp and (when given, per the
truthiness check) the reference, and commits. -/
def update_transaction_status (db : DB) (txid : Nat) (st : TransactionStatus)
    (ref : Option String) (now : Nat) : DB × Option Transactions :=
  match db.transactions.find? (fun t => t.transaction_id == txid) with
  | none => (db, none)
  | some t =>
    let t' : Transactions :=
      { t with
        status := st,
        updated_at := some now,
        transaction_reference :=
          match ref with
          | some r => some r
          | none => t.transaction_reference }
    ({ db with transactions :=
        db.transactions.map (fun x => if x.transaction_id == txid then t' else x) },
     some t')

/-- `Database.redis_client.ORDER_EXPIRATION_SECONDS` (five minutes). -/
def ORDER_EXPIRATION_SECONDS : Nat := 300

/-! ## OrderService.complete_order -/

/-- Failure inside the atomic block of `complete_order`; each of these is
raised inside the `try` and caught by the catch-all. -/
inductive InnerErr
  | bulkTicketMissing (bulk_ticket_id : Nat)
  | invalidSeatData
  | oversold (bulk_ticket_id : Nat)
deriving DecidableEq, Repr

/-- The failures `complete_order` surfaces. -/
inductive CompleteErr
  | orderNotFound
  | invalidState (current : OrderStatus)
  | paymentMismatch
  | paymentNotConfirmed
  | missingSeatAssignments
  | internalError (cause : InnerErr)
deriving DecidableEq, Repr

/-- The HTTP status under which each `complete_order` failure reaches the
caller. Anything raised inside the atomic block — including the
`HTTPException(409)` of the overselling guard — is caught by
`except Exception`, rolled back and re-raised as a 500. -/
def CompleteErr.statusCode : CompleteErr → Nat
  | .orderNotFound => 404
  | .invalidState _ => 400
  | .paymentMismatch => 400
  | .paymentNotConfirmed => 400
  | .missingSeatAssignments => 400
  | .internalError _ => 500

/-- The per-seat `UserTicket` row built in the completion loop. -/
def mkUserTicket (order : UserOrder) (bt : BulkTicket) (s : SeatID) (now : Nat) :
    UserTicket :=
  { order_id := order.id, bulk_ticket_id := bt.id, firebase_uid := order.firebase_uid,
    seat_id := .valid s, price_paid := bt.price, status := "sold",
    qr_code_data := some
      { ticket_id := "ticket_" ++ order.id ++ "_" ++ s.to_string,
        event_id := bt.event_id, venue_id := bt.venue_id, seat := s,
        firebase_uid := order.firebase_uid, order_ref := order.order_reference },
    created_at := now }

/-- The ticket-creation loop of `complete_order` (step 4): walks the seat
assignments, re-checks each tier's availability, creates one ticket per
seat and decrements the tier counter per ticket created. The bulk-ticket
list is threaded because the Python loop mutates the shared ORM objects
in place. The first failure aborts the whole loop. -/
def issueTickets (order : UserOrder) (bulks : List BulkTicket)
    (sas : List SeatOrder) (now : Nat) :
    Except InnerErr (List BulkTicket × List UserTicket) :=
  match sas with
  | [] => .ok (bulks, [])
  | sa :: rest =>
    match bulks.find? (fun b => b.id == sa.bulk_ticket_id) with
    | none => .error (.bulkTicketMissing sa.bulk_ticket_id)
    | some bt =>
      match sa.seat_ids with
      | .malformed _ => .error .invalidSeatData
      | .valid seats =>
        if bt.available_seats < (seats.length : Int) then
          .error (.oversold bt.id)
        else
          let tickets := seats.map (fun s => mkUserTicket order bt s now)
          let bulks' := bulks.map (fun b =>
            if b.id == bt.id then
              { b with available_seats := b.available_seats - (seats.length : Int) }
            else b)
          match issueTickets order bulks' rest now with
          | .error e => .error e
          | .ok (bs, ts) => .ok (bs, tickets ++ ts)

/-- The payment-reference guard of `complete_order`: mismatch only when a
reference is already stored and differs (lenient when unset). -/
def paymentRefMismatch (o : UserOrder) (pid : String) : Bool :=
  match o.payment_intent_id with
  | some stored => stored != pid
  | none => false

/-- The finalized order row written in step 5 of `complete_order`. -/
def completedOrder (o : UserOrder) (pid : String) (now : Nat) : UserOrder :=
  { o with
    status := .completed, stripe_payment_id := some pid,
    completed_at := some now, updated_at := some now }

/-- The body of `complete_order` from the seat-assignment fetch onward
(everything whose durable effect is governed by the final commit /
rollback). `txnOk` injects the fate of the commit performed inside
`TransactionService`: when that inner commit fails the service rolls the
whole session back and returns `None`, which `complete_order` ignores —
the final commit then persists nothing and the still-pending order is
returned. -/
def complete_order_txn (db : DB) (order : UserOrder) (pid : String)
    (txnOk : Bool) (now : Nat) : DB × Except CompleteErr UserOrder :=
  let sas := db.orderSeatAssignments order.id
  if sas.isEmpty then
    -- the notes-based fallback rejects every shape of notes with a 400
    (db, .error .missingSeatAssignments)
  else
    match issueTickets order db.bulkTickets sas now with
    | .error e => (db, .error (.internalError e))
    | .ok (bulks', newTickets) =>
      if txnOk then
        let order' := completedOrder order pid now
        let db1 : DB :=
          { db.setOrder order' with
            tickets := db.tickets ++ newTickets, bulkTickets := bulks' }
        match db1.firstTransaction order.id with
        | some t =>
          ((update_transaction_status db1 t.transaction_id .success
              (some ("Payment completed: " ++ pid)) now).1, .ok order')
        | none =>
          ((create_transaction db1 order.id order.total_amount "stripe"
              (some ("Payment completed: " ++ pid)) .success now).1, .ok order')
      else
        (db, .ok order)

/-- `OrderService.complete_order`. `pOk` is the injected result of
`StripeService.verify_payment_success`. The Kafka notification after the
commit touches no durable state and is omitted. -/
def complete_order (db : DB) (oid pid : String) (pOk txnOk : Bool) (now : Nat) :
    DB × Except CompleteErr UserOrder :=
  match db.getOrder oid with
  | none => (db, .error .orderNotFound)
  | some order =>
    if order.status ≠ OrderStatus.pending then
      if order.status = OrderStatus.completed ∧ order.stripe_payment_id = some pid then
        (db, .ok order)
      else
        (db, .error (.invalidState order.status))
    else if paymentRefMismatch order pid then
      (db, .error .paymentMismatch)
    else if !pOk then
      (db, .error .paymentNotConfirmed)
    else
      complete_order_txn db order pid txnOk now

/-! ## OrderService.cancel_order and the payment-service order operations -/

/-- The failures of `cancel_order`. -/
inductive CancelErr
  | orderNotFound
  | cannotCancel (current : OrderStatus)
deriving DecidableEq, Repr

/-- `OrderService.cancel_order`: valid only from PENDING; flips to
CANCELLED, stamps the update time, and updates the first transaction (or
creates a failed one when none exists). -/
def cancel_order (db : DB) (oid : String) (now : Nat) :
    DB × Except CancelErr UserOrder :=
  match db.getOrder oid with
  | none => (db, .error .orderNotFound)
  | some order =>
    if order.status ≠ OrderStatus.pending then
      (db, .error (.cannotCancel order.status))
    else
      let order' := { order with status := OrderStatus.cancelled, updated_at := some now }
      let db1 := db.setOrder order'
      match db1.firstTransaction oid with
      | some t =>
        ((update_transaction_status db1 t.transaction_id .failed
            (some "Order cancelled") now).1, .ok order')
      | none =>
        ((create_transaction db1 oid order.total_amount "system"
            (some "Order cancelled") .failed now).1, .ok order')

/-- `PaymentOrderService.update_order_status`: writes the requested status
unconditionally (no check of the current status), stamps the update time
and, when completing, the completion time. -/
def update_order_status (db : DB) (oid : String) (st : OrderStatus) (now : Nat) :
    DB × Except CancelErr UserOrder :=
  match db.getOrder oid with
  | none => (db, .error .orderNotFound)
  | some order =>
    let order' :=
      { order with
        status := st, updated_at := some now,
        completed_at := if st = OrderStatus.completed then some now else order.completed_at }
    (db.setOrder order', .ok order')

/-! ## The expiry reaper (order_cleanup_service.cleanup_expired_orders) -/

/-- One order is selected by the sweep when it is PENDING and was created
before `now` minus the lease lifetime. -/
def eligibleForExpiry (o : UserOrder) (now : Nat) : Bool :=
  o.status == OrderStatus.pending && decide (o.created_at + ORDER_EXPIRATION_SECONDS < now)

/-- The shared update-in-place-or-create pattern on an order's
transactions (used by the reaper and by the webhook handler): when the
order already has transactions every one of them is updated in place;
only when none exists is a new row created. -/
def updateOrCreateOrderTxns (db : DB) (oid : String) (st : TransactionStatus)
    (updateRef createRef createMethod : String) (amount : Int) (now : Nat) : DB :=
  let txns := db.orderTransactions oid
  if txns.isEmpty then
    (create_transaction db oid amount createMethod (some createRef) st now).1
  else
    txns.foldl
      (fun d t => (update_transaction_status d t.transaction_id st (some updateRef) now).1)
      db

/-- Processing of a single expired order inside the sweep: flip to
EXPIRED, stamp the update time, and write/update the failed transaction. -/
def expireOne (db : DB) (oid : String) (now : Nat) : DB :=
  match db.getOrder oid with
  | none => db
  | some o =>
    let db1 := db.setOrder { o with status := OrderStatus.expired, updated_at := some now }
    updateOrCreateOrderTxns db1 oid .failed "Order expired" "Order expired automatically"
      "system" o.total_amount now

/-- `cleanup_expired_orders`: select every PENDING order created before
the cutoff and process each. -/
def cleanup_expired_orders (db : DB) (now : Nat) : DB :=
  let expired := db.orders.filter (fun o => eligibleForExpiry o now)
  expired.foldl (fun d o => expireOne d o.id now) db

/-! ## The Redis lease store -/

/-- One per-seat lock entry (`seat_lock:<event>:<seat string>`). -/
structure SeatLockData where
  user_id : String
  order_id : String
  locked_at : Nat
  expires_at : Nat
  seat_data : SeatID
deriving DecidableEq, Repr

/-- The `bulk_ticket_info` blob stored with the user's Redis order
(`none` models the empty dict). -/
structure BulkTicketInfo where
  bulk_ticket_id : Nat
  price_per_seat : Int
  seat_type : String
deriving DecidableEq, Repr

/-- The hash stored at `order:<user>` (or legacy `cart:<user>`). -/
structure RedisOrderData where
  order_id : String
  user_id : String
  event_id : Nat
  seat_ids : List SeatID
  bulk_ticket_info : Option BulkTicketInfo
  status : String
  created_at : Nat
  expires_at : Nat
deriving DecidableEq, Repr

/-- Generic association-list write: replace in place when the key exists,
else append (the semantics of `hset` with a full mapping). -/
def alistSet {κ α : Type} [BEq κ] : List (κ × α) → κ → α → List (κ × α)
  | [], k, v => [(k, v)]
  | p :: t, k, v => if p.1 == k then (k, v) :: t else p :: alistSet t k v

/-- Generic association-list read (`hgetall`, absent key gives the empty
hash, i.e. `none`). -/
def alistGet {κ α : Type} [BEq κ] : List (κ × α) → κ → Option α
  | [], _ => none
  | p :: t, k => if p.1 == k then some p.2 else alistGet t k

/-- Generic association-list delete (`delete`). -/
def alistDel {κ α : Type} [BEq κ] : List (κ × α) → κ → List (κ × α)
  | [], _ => []
  | p :: t, k => if p.1 == k then alistDel t k else p :: alistDel t k

/-- The lease store: the `order:<user>` hashes, the legacy `cart:<user>`
hashes, and the per-seat lock hashes keyed by event id and the seat's
canonical string (`utils.seat_utils.seat_to_redis_key`). -/
structure Redis where
  userOrders : List (String × RedisOrderData)
  legacyCarts : List (String × RedisOrderData)
  seatLocks : List ((Nat × String) × SeatLockData)
deriving DecidableEq, Repr

def Redis.getUserOrder (r : Redis) (user : String) : Option RedisOrderData :=
  alistGet r.userOrders user

def Redis.setUserOrder (r : Redis) (user : String) (d : RedisOrderData) : Redis :=
  { r with userOrders := alistSet r.userOrders user d }

def Redis.delUserOrder (r : Redis) (user : String) : Redis :=
  { r with userOrders := alistDel r.userOrders user }

def Redis.getSeatLock (r : Redis) (event : Nat) (key : String) : Option SeatLockData :=
  alistGet r.seatLocks (event, key)

def Redis.setSeatLock (r : Redis) (event : Nat) (key : String) (d : SeatLockData) : Redis :=
  { r with seatLocks := alistSet r.seatLocks (event, key) d }

def Redis.delSeatLock (r : Redis) (event : Nat) (key : String) : Redis :=
  { r with seatLocks := alistDel r.seatLocks (event, key) }

/-- `TicketLockingService._get_user_order_data`: read `order:<user>`,
falling back to the legacy `cart:<user>` hash. -/
def getUserOrderData (r : Redis) (user : String) : Option RedisOrderData :=
  match r.getUserOrder user with
  | some d => some d
  | none => alistGet r.legacyCarts user

/-! ## TicketLockingService -/

/-- The tickets returned by
`select(UserTicket).join(BulkTicket).where(BulkTicket.event_id == event_id)`. -/
def eventTickets (db : DB) (event : Nat) : List UserTicket :=
  db.tickets.filter (fun t =>
    db.bulkTickets.any (fun b => b.id == t.bulk_ticket_id && b.event_id == event))

/-- The seat-scan shared by `_validate_seat_availability` and
`check_seat_availability`: a requested seat is sold when some ticket of
the event parses to an equal seat (unparseable tickets are skipped by the
bare `except`). -/
def soldSeatIds (db : DB) (event : Nat) (seats : List SeatID) : List SeatID :=
  seats.filter (fun s =>
    (eventTickets db event).any (fun t =>
      match t.seat_id with
      | .valid ts => seats_equal ts s
      | .invalid _ => false))

/-- `TicketLockingService._check_seat_conflicts`: walk the requested
seats; a seat conflicts when another user's lock on it is still valid;
another user's expired lock is deleted on the spot; the caller's own lock
never conflicts. Returns the conflicted seats and the store after the
opportunistic deletions. -/
def check_seat_conflicts (r : Redis) (event : Nat) (seats : List SeatID)
    (user : String) (now : Nat) : List SeatID × Redis :=
  match seats with
  | [] => ([], r)
  | s :: rest =>
    match r.getSeatLock event s.to_string with
    | some ld =>
      if ld.user_id ≠ user then
        if now < ld.expires_at then
          let (cs, r') := check_seat_conflicts r event rest user now
          (s :: cs, r')
        else
          check_seat_conflicts (r.delSeatLock event s.to_string) event rest user now
      else
        check_seat_conflicts r event rest user now
    | none => check_seat_conflicts r event rest user now

/-- `TicketLockingService._unlock_specific_seats`: delete each requested
per-seat lock entry owned by the calling user, returning the seats
actually released. -/
def unlock_specific_seats (r : Redis) (event : Nat) (seats : List SeatID)
    (user : String) : List SeatID × Redis :=
  match seats with
  | [] => ([], r)
  | s :: rest =>
    match r.getSeatLock event s.to_string with
    | some ld =>
      if ld.user_id == user then
        let (us, r') := unlock_specific_seats (r.delSeatLock event s.to_string) event rest user
        (s :: us, r')
      else
        unlock_specific_seats r event rest user
    | none => unlock_specific_seats r event rest user

/-- The database-side cancellation used by unlock/cleanup: if the durable
order exists and is still PENDING, flip it to CANCELLED and overwrite its
notes with a cancellation blob (no `updated_at` stamp in this path). -/
def cancelPendingOrderWithNote (db : DB) (oid : String) (reason : String) (now : Nat) : DB :=
  match db.getOrder oid with
  | some o =>
    if o.status = OrderStatus.pending then
      db.setOrder { o with
        status := OrderStatus.cancelled,
        notes := some (.cancellationNote reason now) }
    else db
  | none => db

/-- `TicketLockingService._cleanup_user_locks` (with a session): release
every per-seat entry of the user's current Redis order, delete the
`order:<user>` hash, and cancel the associated durable order when it is
still PENDING. -/
def cleanup_user_locks (db : DB) (r : Redis) (user : String) (now : Nat) :
    List SeatID × DB × Redis :=
  match getUserOrderData r user with
  | none => ([], db, r)
  | some od =>
    let (unlocked, r1) := unlock_specific_seats r od.event_id od.seat_ids user
    let r2 := r1.delUserOrder user
    (unlocked, cancelPendingOrderWithNote db od.order_id "Cleanup or expiration" now, r2)

/-- `models.LockSeatsRequest`. -/
structure LockSeatsRequest where
  seat_ids : List SeatID
  event_id : Nat
  bulk_ticket_id : Option Nat
deriving DecidableEq, Repr

/-- `models.LockSeatsResponse`. -/
structure LockSeatsResponse where
  message : String
  order_id : String
  user_id : String
  seat_ids : List SeatID
  event_id : Nat
  expires_in_seconds : Nat
  expires_at : Nat
  payment_intent_id : Option String
  client_secret : Option String
deriving DecidableEq, Repr

/-- The dict `StripeService.create_payment_intent` resolves to. -/
structure PaymentIntentData where
  payment_intent_id : Option String
  client_secret : Option String
deriving DecidableEq, Repr

/-- The injected outcome of the payment-intent call. -/
inductive StripeOutcome
  | raises
  | returns (data : PaymentIntentData)
deriving DecidableEq, Repr

/-- The `HTTPException`s `lock_seats` raises deliberately. -/
inductive LockErr
  | seatsSold (seats : List SeatID)
  | seatsLocked (seats : List SeatID)
  | tierMismatch (sect : String)
  | redisFail
  | dbFail
deriving DecidableEq, Repr

/-- The HTTP status of each deliberate `lock_seats` failure. -/
def LockErr.statusCode : LockErr → Nat
  | .seatsSold _ => 409
  | .seatsLocked _ => 409
  | .tierMismatch _ => 400
  | .redisFail => 500
  | .dbFail => 500

/-- How a `lock_seats` invocation ends: a response, a deliberate
`HTTPException`, or an uncaught Python error escaping the handler (the
read of a never-assigned or incomplete `payment_data` at the end of the
function body, outside every `try`). -/
inductive LockOutcome
  | ok (resp : LockSeatsResponse)
  | err (e : LockErr)
  | pythonNameError (var : String)
  | pythonKeyError (key : String)
deriving DecidableEq, Repr

/-- Insertion-order grouping of a matched seat under its bulk-ticket id
(the `seat_assignments` dict construction). -/
def addAssign (l : List (Nat × List SeatID)) (bid : Nat) (s : SeatID) :
    List (Nat × List SeatID) :=
  if l.any (fun p => p.1 == bid) then
    l.map (fun p => if p.1 == bid then (p.1, p.2 ++ [s]) else p)
  else
    l ++ [(bid, [s])]

/-- The per-seat tier matching of `lock_seats` when no `bulk_ticket_id`
is supplied: each seat's section must equal some event tier's seat
prefix; the first unmatched seat aborts with its section name. Returns
the accumulated total and grouped assignments. -/
def matchSeatsToTiers (db : DB) (event : Nat) (seats : List SeatID) :
    Except String (Int × List (Nat × List SeatID)) :=
  go (db.bulkTickets.filter (fun b => b.event_id == event)) seats 0 []
where
  go (bulks : List BulkTicket) : List SeatID → Int → List (Nat × List SeatID) →
      Except String (Int × List (Nat × List SeatID))
    | [], total, acc => .ok (total, acc)
    | s :: rest, total, acc =>
      match bulks.find? (fun b => s.sect == BulkTicket.seat_pref b) with
      | none => .error s.sect
      | some b => go bulks rest (total + b.price) (addAssign acc b.id s)

/-- The totals/assignments step of `lock_seats`: with an explicit
`bulk_ticket_id` every seat is priced under that tier (and when that id
does not resolve, the Python quirk is a zero total and an empty
assignment dict); otherwise seats are matched by section prefix. -/
def computeAssignments (db : DB) (req : LockSeatsRequest) :
    Except String (Int × List (Nat × List SeatID)) :=
  match req.bulk_ticket_id with
  | some bid =>
    match db.getBulkTicket bid with
    | some bt => .ok (bt.price * (req.seat_ids.length : Int), [(bt.id, req.seat_ids)])
    | none => .ok (0, [])
  | none => matchSeatsToTiers db req.event_id req.seat_ids

/-- A fresh `SeatOrder` primary key. -/
def freshSeatOrderId (db : DB) : Nat :=
  (db.seatOrders.map (fun sa => sa.id)).foldr max 0 + 1

/-- The seat-assignment insertion loop of the `lock_seats` database
block (its inner try: failures only warn, so the loop is total). -/
def addSeatAssignmentRows (event : Nat) (newOrderId : String)
    (assigns : List (Nat × List SeatID)) (db : DB) : DB :=
  assigns.foldl (fun d p =>
    match d.getBulkTicket p.1 with
    | some bt =>
      { d with seatOrders := d.seatOrders ++
          [{ id := freshSeatOrderId d, order_id := newOrderId,
             event_id := event, venue_id := bt.venue_id,
             bulk_ticket_id := bt.id, seat_ids := .valid p.2 }] }
    | none => d) db

/-- The pending order row `lock_seats` persists (same id as the lease). -/
def mkPendingOrder (user newOrderId : String) (total : Int)
    (assigns : List (Nat × List SeatID)) (now : Nat) : UserOrder :=
  { id := newOrderId, order_reference := "ORD-" ++ newOrderId,
    firebase_uid := user, total_amount := total, status := OrderStatus.pending,
    notes := some (.seatAssignmentsNote assigns newOrderId),
    payment_intent_id := none, stripe_payment_id := none,
    service_fee := 0, created_at := now, updated_at := none, completed_at := none }

/-- The database block of `lock_seats` (pending order, reservation
transaction, seat-assignment rows, then the payment-intent try-block):
returns the store plus the local Python variables `payment_intent_id`
and `payment_data` (`none` for the latter models it never being
assigned). -/
def lock_seats_db_block (db1 : DB) (event : Nat) (user newOrderId : String)
    (total : Int) (assigns : List (Nat × List SeatID)) (stripe : StripeOutcome)
    (now : Nat) : DB × Option String × Option PaymentIntentData :=
  let newOrder := mkPendingOrder user newOrderId total assigns now
  let db2 : DB := { db1 with orders := db1.orders ++ [newOrder] }
  let db3 := (create_transaction db2 newOrderId total "reservation"
    (some "Tickets locked/reserved") .pending now).1
  let db4 := addSeatAssignmentRows event newOrderId assigns db3
  match db4.getOrder newOrderId with
  | some o =>
    if o.status = OrderStatus.pending then
      match stripe with
      | .raises => (db4, none, none)
      | .returns pd =>
        match pd.payment_intent_id with
        | some pi =>
          let dbP :=
            match db4.getOrder newOrderId with
            | some o2 => db4.setOrder { o2 with
                payment_intent_id := some pi, updated_at := some now }
            | none => db4
          (dbP, some pi, some pd)
        | none => (db4, none, some pd)
    else (db4, none, none)
  | none => (db4, none, none)

/-- The per-seat lock hash written for a new lease. -/
def mkSeatLockData (user oid : String) (s : SeatID) (now expires : Nat) : SeatLockData :=
  { user_id := user, order_id := oid, locked_at := now,
    expires_at := expires, seat_data := s }

/-- `TicketLockingService.lock_seats`. Injected effects: `newOrderId` is
the generated uuid, `redisOk` the fate of the lease-write pipeline,
`dbOk` the fate of the pending-order commit, `stripe` the outcome of the
payment-intent call. -/
def lock_seats (db : DB) (r : Redis) (user : String) (req : LockSeatsRequest)
    (newOrderId : String) (redisOk dbOk : Bool) (stripe : StripeOutcome)
    (now : Nat) : DB × Redis × LockOutcome :=
  -- 1. reject seats already sold for this event
  let sold := soldSeatIds db req.event_id req.seat_ids
  if sold ≠ [] then (db, r, .err (.seatsSold sold))
  else
    -- 2. reject seats covered by another user's still-valid lock
    let (conflicted, r1) := check_seat_conflicts r req.event_id req.seat_ids user now
    if conflicted ≠ [] then (db, r1, .err (.seatsLocked conflicted))
    else
      -- 3. release the caller's pre-existing lease (cancelling its order)
      let (_, db1, r2) := cleanup_user_locks db r1 user now
      -- 4. bulk ticket info for pricing
      let btinfo : Option BulkTicketInfo :=
        match req.bulk_ticket_id with
        | some bid =>
          (db1.getBulkTicket bid).map (fun b =>
            { bulk_ticket_id := b.id, price_per_seat := b.price, seat_type := b.seat_type })
        | none => none
      -- 5. totals and tier assignments
      match computeAssignments db1 req with
      | .error sect => (db1, r2, .err (.tierMismatch sect))
      | .ok (total, assigns) =>
        let expires := now + ORDER_EXPIRATION_SECONDS
        -- 6. write the lease batch to Redis first
        if !redisOk then (db1, r2, .err .redisFail)
        else
          let od : RedisOrderData :=
            { order_id := newOrderId, user_id := user, event_id := req.event_id,
              seat_ids := req.seat_ids, bulk_ticket_info := btinfo,
              status := "locked", created_at := now, expires_at := expires }
          let r3 := (r2.setUserOrder user od)
          let r4 := req.seat_ids.foldl
            (fun rr s => rr.setSeatLock req.event_id s.to_string
              (mkSeatLockData user newOrderId s now expires)) r3
          -- 7. the durable PENDING order, transaction, seat assignments
          if !dbOk then
            -- compensating delete of the lease and every per-seat key
            let r5 := r4.delUserOrder user
            let r6 := req.seat_ids.foldl
              (fun rr s => rr.delSeatLock req.event_id s.to_string) r5
            (db1, r6, .err .dbFail)
          else
            let (db5, payment_intent_id, payment_data) :
                DB × Option String × Option PaymentIntentData :=
              lock_seats_db_block db1 req.event_id user newOrderId total assigns
                stripe now
            -- after the try blocks: `client_secret = payment_data['client_secret']`
            match payment_data with
            | none => (db5, r4, .pythonNameError "payment_data")
            | some pd =>
              match pd.client_secret with
              | none => (db5, r4, .pythonKeyError "client_secret")
              | some cs =>
                let db_order := db5.getOrder newOrderId
                let baseMsg :=
                  "Order created successfully. Your selection will expire in 5 minutes."
                let msg :=
                  if payment_intent_id.isSome then baseMsg ++ " Payment intent created."
                  else baseMsg
                let resp0 : LockSeatsResponse :=
                  { message := msg, order_id := newOrderId, user_id := user,
                    seat_ids := req.seat_ids, event_id := req.event_id,
                    expires_in_seconds := ORDER_EXPIRATION_SECONDS,
                    expires_at := expires, payment_intent_id := none,
                    client_secret := none }
                let resp :=
                  match payment_intent_id with
                  | some pi =>
                    { resp0 with payment_intent_id := some pi, client_secret := some cs }
                  | none =>
                    match db_order with
                    | some o =>
                      match o.payment_intent_id with
                      | some pi2 => { resp0 with payment_intent_id := some pi2 }
                      | none => resp0
                    | none => resp0
                (db5, r4, .ok resp)

/-- `models.UnlockSeatsRequest`. -/
structure UnlockSeatsRequest where
  order_id : Option String
  seat_ids : Option (List SeatID)
deriving DecidableEq, Repr

/-- `models.UnlockSeatsResponse`. -/
structure UnlockSeatsResponse where
  message : String
  unlocked_seat_ids : List SeatID
deriving DecidableEq, Repr

/-- The 404 of `unlock_seats` (lease absent or for a different order). -/
inductive UnlockErr
  | orderNotFoundOrNotOwned
deriving DecidableEq, Repr

/-- Python truthiness of the optional seat list. -/
def seatListTruthy : Option (List SeatID) → Bool
  | some (_ :: _) => true
  | _ => false

/-- `TicketLockingService.unlock_seats`. With an `order_id`: release the
requested seats (or all) from the user's lease, rewrite the lease with
the remainder on a partial release (or delete it), and cancel the
durable order when it is still PENDING. Without an `order_id`: cancel
the durable order of the user's lease and clean up all the user's
locks. -/
def unlock_seats (db : DB) (r : Redis) (user : String) (req : UnlockSeatsRequest)
    (now : Nat) : DB × Redis × Except UnlockErr UnlockSeatsResponse :=
  match req.order_id with
  | some oid =>
    match getUserOrderData r user with
    | none => (db, r, .error .orderNotFoundOrNotOwned)
    | some od =>
      if od.order_id ≠ oid then (db, r, .error .orderNotFoundOrNotOwned)
      else
        let seat_ids := od.seat_ids
        let hasReq := seatListTruthy req.seat_ids
        let requested := req.seat_ids.getD []
        let seats_to_unlock := if hasReq then seats_in_list requested seat_ids else seat_ids
        let (_, r1) := unlock_specific_seats r od.event_id seats_to_unlock user
        let r2 :=
          if hasReq && decide (seats_to_unlock.length < seat_ids.length) then
            -- partial release: rewrite `order:<user>` with the remainder
            r1.setUserOrder user
              { od with seat_ids := remove_seats_from_list seats_to_unlock seat_ids }
          else
            r1.delUserOrder user
        -- cancel the durable order (if it exists and is still PENDING)
        let db1 := cancelPendingOrderWithNote db oid "User unlocked seats" now
        (db1, r2, .ok
          { message := "Successfully unlocked " ++ toString seats_to_unlock.length ++ " seats",
            unlocked_seat_ids := seats_to_unlock })
  | none =>
    let db1 :=
      match getUserOrderData r user with
      | some od => cancelPendingOrderWithNote db od.order_id "User unlocked all seats" now
      | none => db
    let (unlocked, db2, r2) := cleanup_user_locks db1 r user now
    (db2, r2, .ok
      { message := "Successfully unlocked all seats for user",
        unlocked_seat_ids := unlocked })

/-- One entry of the `locked_seats` bucket of the availability report. -/
structure LockedSeatInfo where
  seat_id : SeatID
  locked_by_user_id : String
  expires_at : Nat
deriving DecidableEq, Repr

/-- `models.SeatAvailabilityResponse`. -/
structure SeatAvailabilityResponse where
  event_id : Nat
  available_seats : List SeatID
  locked_seats : List LockedSeatInfo
  unavailable_seats : List SeatID
deriving DecidableEq, Repr

/-- The classification loop of `check_seat_availability`: sold seats were
already collected; a remaining seat with a still-valid lock is locked; an
expired lock is deleted and the seat is available; no lock means
available. -/
def classifySeats (r : Redis) (event : Nat) (seats unavailable : List SeatID)
    (now : Nat) : List SeatID × List LockedSeatInfo × Redis :=
  match seats with
  | [] => ([], [], r)
  | s :: rest =>
    if find_seat_in_list s unavailable != -1 then
      classifySeats r event rest unavailable now
    else
      match r.getSeatLock event s.to_string with
      | some ld =>
        if now < ld.expires_at then
          let (av, lk, r') := classifySeats r event rest unavailable now
          (av, { seat_id := s, locked_by_user_id := ld.user_id,
                 expires_at := ld.expires_at } :: lk, r')
        else
          let (av, lk, r') :=
            classifySeats (r.delSeatLock event s.to_string) event rest unavailable now
          (s :: av, lk, r')
      | none =>
        let (av, lk, r') := classifySeats r event rest unavailable now
        (s :: av, lk, r')

/-- `TicketLockingService.check_seat_availability`: read-only except for
the opportunistic deletion of expired locks. -/
def check_seat_availability (db : DB) (r : Redis) (event : Nat)
    (seats : List SeatID) (now : Nat) : Redis × SeatAvailabilityResponse :=
  let unavailable := soldSeatIds db event seats
  let (available, locked, r') := classifySeats r event seats unavailable now
  (r', { event_id := event, available_seats := available,
         locked_seats := locked, unavailable_seats := unavailable })

/-! ## The Stripe webhook handler (post signature verification) -/

/-- A verified Stripe event: its type, the payment-intent id, and the
order id carried in the intent's metadata. -/
structure StripeEvent where
  etype : String
  payment_intent_id : Option String
  metadata_order_id : Option String
deriving DecidableEq, Repr

/-- How the webhook endpoint answers the sender. -/
inductive WebhookResult
  | okAck (event_type : String)
  | httpError (code : Nat)
deriving DecidableEq, Repr

/-- `stripe_webhook` after signature verification succeeded. On
`payment_intent.succeeded`: require the metadata order id and intent id,
require the order to exist, record/update a success transaction, then
run `complete_order`; any failure there is answered 500 so the sender
retries. On `payment_intent.payment_failed`: record/update a failed
transaction and cancel the order, swallowing errors. Every other event
type is only logged and acknowledged with success. -/
def stripe_webhook (db : DB) (ev : StripeEvent) (pOk txnOk : Bool) (now : Nat) :
    DB × WebhookResult :=
  if ev.etype = "payment_intent.succeeded" then
    match ev.metadata_order_id with
    | none => (db, .httpError 400)
    | some oid =>
      match ev.payment_intent_id with
      | none => (db, .httpError 400)
      | some pi =>
        match db.getOrder oid with
        | none => (db, .httpError 500)
        | some order =>
          let db1 := updateOrCreateOrderTxns db oid .success
            ("Payment successful: " ++ pi) ("Payment successful: " ++ pi)
            "stripe" order.total_amount now
          match complete_order db1 oid pi pOk txnOk now with
          | (db2, .ok _) => (db2, .okAck ev.etype)
          | (db2, .error _) => (db2, .httpError 500)
  else if ev.etype = "payment_intent.payment_failed" then
    match ev.metadata_order_id with
    | none => (db, .okAck ev.etype)
    | some oid =>
      let db1 :=
        match db.getOrder oid with
        | some order => updateOrCreateOrderTxns db oid .failed
            "Payment failed" "Payment failed" "stripe" order.total_amount now
        | none => db
      -- cancel_order is attempted regardless; its failure is swallowed
      ((cancel_order db1 oid now).1, .okAck ev.etype)
  else
    -- unexpected kinds are logged only and still acknowledged
    (db, .okAck ev.etype)


/-! ## Concrete sample states (used by the closed witnesses below) -/

def seatG0 : SeatID := { sect := "General", row_id := 0, col_id := 0 }

def seatG1 : SeatID := { sect := "General", row_id := 0, col_id := 1 }

def seatG2 : SeatID := { sect := "General", row_id := 0, col_id := 2 }

def sampleBulk : BulkTicket :=
  { id := 1, event_id := 7, venue_id := 3, seat_type := "REGULAR", price := 1000,
    total_seats := 10, available_seats := 5, seat_pref := "General" }

def sampleOrder : UserOrder :=
  { id := "ord1", order_reference := "ORD-1", firebase_uid := "alice",
    total_amount := 2000, status := .pending, notes := none,
    payment_intent_id := some "pi1", stripe_payment_id := none, service_fee := 0,
    created_at := 10, updated_at := none, completed_at := none }

def sampleAssignment : SeatOrder :=
  { id := 1, order_id := "ord1", event_id := 7, venue_id := 3, bulk_ticket_id := 1,
    seat_ids := .valid [seatG0, seatG1] }

def sampleDB : DB :=
  { orders := [sampleOrder], tickets := [], transactions := [],
    seatOrders := [sampleAssignment], bulkTickets := [sampleBulk] }

/-- The sample database after a successful finalize of `ord1`. -/
def completedDB : DB := (complete_order sampleDB "ord1" "pi1" true true 100).1

/-- The sample database with only one seat left in the tier, while the
order's assignment needs two. -/
def oversoldDB : DB :=
  { sampleDB with bulkTickets := [{ sampleBulk with available_seats := 1 }] }

def emptyRedis : Redis := { userOrders := [], legacyCarts := [], seatLocks := [] }

/-- A competing user's still-valid lock on the first sample seat. -/
def bobLock : SeatLockData :=
  { user_id := "bob", order_id := "ordB", locked_at := 0, expires_at := 1000,
    seat_data := seatG0 }

def conflictRedis : Redis :=
  { userOrders := [], legacyCarts := [],
    seatLocks := [((7, seatG0.to_string), bobLock)] }

/-- The same competing lock already past its expiry. -/
def expiredRedis : Redis :=
  { userOrders := [], legacyCarts := [],
    seatLocks := [((7, seatG0.to_string), { bobLock with expires_at := 50 })] }

/-- Alice's own active lease over three seats for order `ord1`. -/
def aliceLease : RedisOrderData :=
  { order_id := "ord1", user_id := "alice", event_id := 7,
    seat_ids := [seatG0, seatG1, seatG2], bulk_ticket_info := none,
    status := "locked", created_at := 10, expires_at := 310 }

def aliceSeatLock (s : SeatID) : SeatLockData :=
  { user_id := "alice", order_id := "ord1", locked_at := 10, expires_at := 310,
    seat_data := s }

def aliceRedis : Redis :=
  { userOrders := [("alice", aliceLease)], legacyCarts := [],
    seatLocks := [((7, seatG0.to_string), aliceSeatLock seatG0),
                  ((7, seatG1.to_string), aliceSeatLock seatG1),
                  ((7, seatG2.to_string), aliceSeatLock seatG2)] }

/-- Statement vocabulary: the seat is covered by a still-valid lock of a
different user in `r` at time `now`. -/
def hasOtherValidLock (r : Redis) (event : Nat) (user : String) (now : Nat)
    (s : SeatID) : Bool :=
  match r.getSeatLock event s.to_string with
  | some ld => ld.user_id != user && decide (now < ld.expires_at)
  | none => false

/-- Statement vocabulary: the in-place update the reaper applies to each
existing transaction row of an expired order. -/
def expireTxn (now : Nat) (t : Transactions) : Transactions :=
  { t with
    status := .failed, transaction_reference := some "Order expired",
    updated_at := some now }

/-- Statement vocabulary: the failed transaction row the reaper creates
for an expired order that had none. -/
def isAutoExpiryTxn (o : UserOrder) (now : Nat) (t : Transactions) : Prop :=
  t.order_id = o.id ∧ t.status = TransactionStatus.failed
  ∧ t.payment_method = "system"
  ∧ t.transaction_reference = some "Order expired automatically"
  ∧ t.amount = o.total_amount ∧ t.created_at = now

/-! ## Generic association-list and lookup lemmas -/

theorem alistGet_alistSet {κ α : Type} [BEq κ] [LawfulBEq κ] [DecidableEq κ]
    (l : List (κ × α)) (k k' : κ) (v : α) :
    alistGet (alistSet l k v) k' = if k' = k then some v else alistGet l k' := by
  induction l with
  | nil =>
    by_cases h : k' = k
    · subst h; simp [alistSet, alistGet]
    · have hb : ¬ ((k == k') = true) := fun hc => h (eq_of_beq hc).symm
      simp [alistSet, alistGet, hb, h]
  | cons p t ih =>
    by_cases hp : p.1 = k
    · by_cases h : k' = k
      · subst h
        simp [alistSet, alistGet, hp]
      · have hb : ¬ ((k == k') = true) := fun hc => h (eq_of_beq hc).symm
        have hp' : ¬ ((p.1 == k') = true) := fun hc => h (by rw [← eq_of_beq hc, hp])
        simp [alistSet, alistGet, hp, hb, h, hp']
    · by_cases hq : p.1 = k'
      · have h : ¬ (k' = k) := fun hc => hp (by rw [hq, hc])
        have hpb : ¬ ((p.1 == k) = true) := fun hc => hp (eq_of_beq hc)
        simp [alistSet, alistGet, hpb, hq, h]
      · have hpb : ¬ ((p.1 == k) = true) := fun hc => hp (eq_of_beq hc)
        have hqb : ¬ ((p.1 == k') = true) := fun hc => hq (eq_of_beq hc)
        simp only [alistSet, hpb, if_false, alistGet, hqb, Bool.false_eq_true]
        exact ih

theorem alistGet_alistDel {κ α : Type} [BEq κ] [LawfulBEq κ] [DecidableEq κ]
    (l : List (κ × α)) (k k' : κ) :
    alistGet (alistDel l k) k' = if k' = k then none else alistGet l k' := by
  induction l with
  | nil => by_cases h : k' = k <;> simp [alistDel, alistGet, h]
  | cons p t ih =>
    by_cases hp : p.1 = k
    · have hpb : (p.1 == k) = true := by simp [hp]
      by_cases h : k' = k
      · simp only [alistDel, hpb, if_true]
        rw [ih, if_pos h, if_pos h]
      · have hp' : ¬ ((p.1 == k') = true) := fun hc => h (by rw [← eq_of_beq hc, hp])
        simp only [alistDel, hpb, if_true]
        rw [ih, if_neg h, if_neg h]
        simp [alistGet, hp']
    · have hpb : ¬ ((p.1 == k) = true) := fun hc => hp (eq_of_beq hc)
      by_cases hq : p.1 = k'
      · have h : ¬ (k' = k) := fun hc => hp (by rw [hq, hc])
        simp [alistDel, alistGet, hpb, hq, h]
      · have hqb : ¬ ((p.1 == k') = true) := fun hc => hq (eq_of_beq hc)
        simp only [alistDel, hpb, if_false, alistGet, hqb, Bool.false_eq_true]
        exact ih

/-- `find?` by key over a member of a list whose keys are distinct. -/
theorem find?_id_of_nodup (l : List UserOrder) (o : UserOrder)
    (hmem : o ∈ l) (hnd : (l.map (fun x => x.id)).Nodup) :
    l.find? (fun x => x.id == o.id) = some o := by
  induction l with
  | nil => simp at hmem
  | cons a t ih =>
    simp only [List.map_cons, List.nodup_cons] at hnd
    rcases List.mem_cons.mp hmem with h | h
    · subst h
      simp [List.find?_cons]
    · have hane : ¬ (a.id = o.id) := fun hc =>
        hnd.1 (hc ▸ List.mem_map_of_mem (fun x => x.id) h)
      rw [List.find?_cons_of_neg _ (by simpa using hane)]
      exact ih h hnd.2


/-! ## Frame lemmas for the durable store -/

theorem getOrder_setOrder_ne (db : DB) (o : UserOrder) (x : String) (h : o.id ≠ x) :
    (db.setOrder o).getOrder x = db.getOrder x := by
  unfold DB.setOrder DB.getOrder
  simp only []
  induction db.orders with
  | nil => rfl
  | cons a t ih =>
    by_cases ha : a.id = o.id
    · have h2 : ¬ (a.id = x) := fun hc => h (by rw [← ha, hc])
      rw [List.map_cons, if_pos (by simpa using ha),
        List.find?_cons_of_neg _ (by simpa using h),
        List.find?_cons_of_neg _ (by simpa using h2)]
      exact ih
    · rw [List.map_cons, if_neg (by simpa using ha)]
      by_cases hx : a.id = x
      · rw [List.find?_cons_of_pos _ (by simpa using hx),
          List.find?_cons_of_pos _ (by simpa using hx)]
      · rw [List.find?_cons_of_neg _ (by simpa using hx),
          List.find?_cons_of_neg _ (by simpa using hx)]
        exact ih

theorem find?_map_set_found (l : List UserOrder) (o y : UserOrder) (x : String)
    (hy : l.find? (fun e => e.id == x) = some y) (hid : o.id = x) :
    (l.map (fun e => if e.id == o.id then o else e)).find? (fun e => e.id == x) = some o := by
  induction l with
  | nil => simp at hy
  | cons a t ih =>
    by_cases ha : a.id = x
    · have hao : (a.id == o.id) = true := by simp [ha, hid]
      rw [List.map_cons, if_pos hao, List.find?_cons_of_pos _ (by simpa using hid)]
    · rw [List.find?_cons_of_neg _ (by simpa using ha)] at hy
      have hao : ¬ ((a.id == o.id) = true) := by
        simp only [beq_iff_eq]
        exact fun hc => ha (by rw [hc, hid])
      rw [List.map_cons, if_neg hao, List.find?_cons_of_neg _ (by simpa using ha)]
      exact ih hy

theorem getOrder_setOrder_found (db : DB) (o y : UserOrder) (x : String)
    (hy : db.getOrder x = some y) (hid : o.id = x) :
    (db.setOrder o).getOrder x = some o := by
  unfold DB.setOrder DB.getOrder
  unfold DB.getOrder at hy
  exact find?_map_set_found db.orders o y x hy hid

/-- The id profile of the orders table is untouched by an in-place write
of a row fetched from it. -/
theorem orders_map_id_setOrder (db : DB) (o : UserOrder) :
    (db.setOrder o).orders.map (fun x => x.id) = db.orders.map (fun x => x.id) := by
  unfold DB.setOrder
  simp only []
  induction db.orders with
  | nil => rfl
  | cons a t ih =>
    by_cases ha : a.id = o.id
    · rw [List.map_cons, if_pos (by simpa using ha), List.map_cons, List.map_cons, ih, ha]
    · rw [List.map_cons, if_neg (by simpa using ha), List.map_cons, List.map_cons, ih]

theorem orders_create_transaction (db : DB) (oid : String) (amount : Int)
    (method : String) (ref : Option String) (st : TransactionStatus) (now : Nat) :
    ((create_transaction db oid amount method ref st now).1).orders = db.orders := by
  unfold create_transaction
  rcases db.getOrder oid with _ | o <;> rfl

theorem orders_update_transaction_status (db : DB) (txid : Nat)
    (st : TransactionStatus) (ref : Option String) (now : Nat) :
    ((update_transaction_status db txid st ref now).1).orders = db.orders := by
  unfold update_transaction_status
  rcases h : List.find? (fun t => t.transaction_id == txid) db.transactions with _ | t <;>
    simp [h]

theorem orders_foldl_update (ts : List Transactions) (db : DB)
    (st : TransactionStatus) (uref : String) (now : Nat) :
    (ts.foldl (fun d t => (update_transaction_status d t.transaction_id st (some uref) now).1)
      db).orders = db.orders := by
  induction ts generalizing db with
  | nil => rfl
  | cons t rest ih =>
    rw [List.foldl_cons, ih, orders_update_transaction_status]

theorem orders_updateOrCreateOrderTxns (db : DB) (oid : String)
    (st : TransactionStatus) (uref cref cmeth : String) (amount : Int) (now : Nat) :
    (updateOrCreateOrderTxns db oid st uref cref cmeth amount now).orders = db.orders := by
  unfold updateOrCreateOrderTxns
  by_cases h : (db.orderTransactions oid).isEmpty
  · simp [h, orders_create_transaction]
  · simp only [h, if_false, Bool.false_eq_true]
    exact orders_foldl_update _ db st uref now

/-! ## Further lookup helpers -/

theorem getOrder_some_id (db : DB) (oid : String) (o : UserOrder)
    (h : db.getOrder oid = some o) : o.id = oid := by
  unfold DB.getOrder at h
  have := List.find?_some h
  simpa using this

theorem getOrder_eq_of_orders (d1 d2 : DB) (h : d1.orders = d2.orders) (x : String) :
    d1.getOrder x = d2.getOrder x := by
  unfold DB.getOrder
  rw [h]

theorem getOrder_expireOne_ne (d : DB) (z x : String) (now : Nat) (h : z ≠ x) :
    (expireOne d z now).getOrder x = d.getOrder x := by
  unfold expireOne
  cases hz : d.getOrder z with
  | none => rfl
  | some o =>
    have hoid : o.id = z := getOrder_some_id d z o hz
    rw [getOrder_eq_of_orders _ (d.setOrder { o with
        status := OrderStatus.expired, updated_at := some now })
      (orders_updateOrCreateOrderTxns _ _ _ _ _ _ _ _) x]
    exact getOrder_setOrder_ne d _ x (by simpa [hoid] using h)

theorem getOrder_foldl_expireOne_frame (l : List UserOrder) (d : DB) (x : String)
    (now : Nat) (h : ∀ o ∈ l, o.id ≠ x) :
    (l.foldl (fun d o => expireOne d o.id now) d).getOrder x = d.getOrder x := by
  induction l generalizing d with
  | nil => rfl
  | cons a t ih =>
    rw [List.foldl_cons, ih _ (fun o ho => h o (List.mem_cons_of_mem a ho)),
      getOrder_expireOne_ne d a.id x now (h a (List.mem_cons_self a t))]

theorem mem_id_eq_getOrder (db : DB) (o o' : UserOrder)
    (hids : (db.orders.map (fun x => x.id)).Nodup)
    (hmem : o' ∈ db.orders) (ho : db.getOrder o'.id = some o) : o' = o := by
  have h1 := find?_id_of_nodup db.orders o' hmem hids
  unfold DB.getOrder at ho
  rw [h1] at ho
  exact Option.some.inj ho

theorem cancelNote_preserves_terminal (db : DB) (z reason : String)
    (now : Nat) (oid : String) (o : UserOrder)
    (ho : db.getOrder oid = some o) (hterm : o.status ≠ OrderStatus.pending) :
    (cancelPendingOrderWithNote db z reason now).getOrder oid = some o := by
  unfold cancelPendingOrderWithNote
  cases hz : db.getOrder z with
  | none => exact ho
  | some oz =>
    dsimp only
    by_cases hp : oz.status = OrderStatus.pending
    · rw [if_pos hp]
      have hzid : oz.id = z := getOrder_some_id db z oz hz
      by_cases hzz : z = oid
      · subst hzz
        rw [ho] at hz
        have : o = oz := Option.some.inj hz
        exact absurd (this ▸ hp) hterm
      · rw [getOrder_setOrder_ne db _ oid (by simpa [hzid] using hzz)]
        exact ho
    · rw [if_neg hp]
      exact ho

/-! ## C8 — webhook no-op on unexpected kinds -/

/-- C8: a signature-verified webhook notification whose event kind is
neither payment-succeeded nor payment-failed performs no order, ticket,
or transaction state change (the database is returned untouched) and is
still acknowledged with a success response rather than rejected. -/
theorem C8_webhook_noop_on_unexpected_kind (db : DB) (ev : StripeEvent)
    (pOk txnOk : Bool) (now : Nat)
    (h1 : ev.etype ≠ "payment_intent.succeeded")
    (h2 : ev.etype ≠ "payment_intent.payment_failed") :
    stripe_webhook db ev pOk txnOk now = (db, .okAck ev.etype) := by
  unfold stripe_webhook
  rw [if_neg h1, if_neg h2]

/-- Witness for C8 at a concrete refund event over the sample database. -/
theorem C8_webhook_noop_on_unexpected_kind_witness :
    stripe_webhook sampleDB
      { etype := "charge.refunded", payment_intent_id := some "pi1",
        metadata_order_id := some "ord1" } true true 100 =
      (sampleDB, .okAck "charge.refunded") :=
  C8_webhook_noop_on_unexpected_kind sampleDB
    { etype := "charge.refunded", payment_intent_id := some "pi1",
      metadata_order_id := some "ord1" } true true 100
    (by decide) (by decide)

/-! ## C3 — oversold signalling -/

/-- C3 counterexample: on `oversoldDB` the finalize call trips the
overselling guard, but the caller receives the 500-class internal error
produced by the catch-all rollback handler — not a 409-class error as
the claim states. -/
theorem C3_counterexample_oversold_not_409 :
    (complete_order oversoldDB "ord1" "pi1" true true 400).2 =
      .error (.internalError (.oversold 1))
    ∧ CompleteErr.statusCode (.internalError (.oversold 1)) = 500
    ∧ CompleteErr.statusCode (.internalError (.oversold 1)) ≠ 409 :=
  ⟨rfl, rfl, by decide⟩

/-- C3 (amended): whenever the ticket-creation loop of FinalizeOrder
detects a tier with fewer available seats than an assignment requires,
the call fails with the Oversold condition and the batch is rolled back
(the database is returned unchanged), but the failure reaches the caller
as a 500-class internal error — the 409 raised inside the atomic block
is caught by the generic rollback handler — not as a 409-class error. -/
theorem C3_oversold_surfaces_as_500 (db : DB) (oid pid : String)
    (txnOk : Bool) (now : Nat) (o : UserOrder) (b : Nat)
    (ho : db.getOrder oid = some o) (hp : o.status = OrderStatus.pending)
    (hm : paymentRefMismatch o pid = false)
    (hfail : issueTickets o db.bulkTickets (db.orderSeatAssignments o.id) now
      = .error (.oversold b)) :
    complete_order db oid pid true txnOk now =
      (db, .error (.internalError (.oversold b)))
    ∧ CompleteErr.statusCode (.internalError (.oversold b)) = 500
    ∧ CompleteErr.statusCode (.internalError (.oversold b)) ≠ 409 := by
  refine ⟨?_, rfl, by simp [CompleteErr.statusCode]⟩
  unfold complete_order
  rw [ho]
  dsimp only
  rw [if_neg (by simp [hp]), if_neg (by simp [hm]), if_neg (by simp)]
  unfold complete_order_txn
  have hne : ¬ ((db.orderSeatAssignments o.id).isEmpty = true) := by
    intro hemp
    rw [List.isEmpty_iff] at hemp
    rw [hemp] at hfail
    simp [issueTickets] at hfail
  rw [if_neg hne, hfail]

/-- Witness for the amended C3 over the concrete oversold database. -/
theorem C3_oversold_surfaces_as_500_witness :
    complete_order oversoldDB "ord1" "pi1" true true 400 =
      (oversoldDB, .error (.internalError (.oversold 1)))
    ∧ CompleteErr.statusCode (.internalError (.oversold 1)) = 500
    ∧ CompleteErr.statusCode (.internalError (.oversold 1)) ≠ 409 :=
  C3_oversold_surfaces_as_500 oversoldDB "ord1" "pi1" true 400 sampleOrder 1
    (by decide) (by decide) (by decide) (by rfl)

/-! ## C4 — terminal-state invariant -/

/-- C4 counterexample: `completedDB` holds order `ord1` in the terminal
COMPLETED status, yet the payment-service status update (a public
operation of the service, cited by the claim) moves it to CANCELLED. -/
theorem C4_counterexample_terminal_status_overwritten :
    (completedDB.getOrder "ord1").map (fun o => o.status) = some OrderStatus.completed
    ∧ (((update_order_status completedDB "ord1" OrderStatus.cancelled 500).1.getOrder
        "ord1").map (fun o => o.status)) = some OrderStatus.cancelled := by
  refine ⟨by rfl, by rfl⟩

/-- C4 (amended): once an order's status is terminal (COMPLETED,
CANCELLED, or EXPIRED), finalize, cancel, unlock, and the reaper sweep
never change it — finalize permits only the idempotent re-confirmation
of COMPLETED, returning the store untouched — but the payment-service
status update overwrites the status unconditionally, so a terminal order
can be moved to any status through that one operation. -/
theorem C4_terminal_state_invariant_amended (db : DB) (oid : String) (o : UserOrder)
    (ho : db.getOrder oid = some o) (hterm : o.status ≠ OrderStatus.pending)
    (hids : (db.orders.map (fun x => x.id)).Nodup) :
    (∀ pid pOk txnOk now, (complete_order db oid pid pOk txnOk now).1 = db)
    ∧ (∀ now, (cancel_order db oid now).1 = db)
    ∧ (∀ now, (cleanup_expired_orders db now).getOrder oid = some o)
    ∧ (∀ r user req now, ((unlock_seats db r user req now).1).getOrder oid = some o)
    ∧ (∀ st now, ((update_order_status db oid st now).1).getOrder oid =
        some { o with
          status := st, updated_at := some now,
          completed_at := if st = OrderStatus.completed then some now
            else o.completed_at }) := by
  refine ⟨?_, ?_, ?_, ?_, ?_⟩
  · intro pid pOk txnOk now
    unfold complete_order
    rw [ho]
    dsimp only
    rw [if_pos hterm]
    split <;> rfl
  · intro now
    unfold cancel_order
    rw [ho]
    dsimp only
    rw [if_pos hterm]
  · intro now
    unfold cleanup_expired_orders
    rw [getOrder_foldl_expireOne_frame _ db oid now ?_]
    · exact ho
    · intro o' hmem hoid
      have hmem' : o' ∈ db.orders := List.mem_of_mem_filter hmem
      have helig : eligibleForExpiry o' now = true :=
        (List.mem_filter.mp hmem).2
      have : o' = o := mem_id_eq_getOrder db o o' hids hmem' (by rw [hoid]; exact ho)
      rw [this] at helig
      unfold eligibleForExpiry at helig
      simp only [Bool.and_eq_true, beq_iff_eq] at helig
      exact hterm helig.1
  · intro r user req now
    rcases req with ⟨roid, rseats⟩
    unfold unlock_seats
    cases roid with
    | some oid2 =>
      dsimp only
      cases hod : getUserOrderData r user with
      | none => exact ho
      | some od =>
        dsimp only
        by_cases he : od.order_id ≠ oid2
        · rw [if_pos he]
          exact ho
        · rw [if_neg he]
          exact cancelNote_preserves_terminal db oid2 "User unlocked seats" now oid o ho hterm
    | none =>
      dsimp only
      cases hod : getUserOrderData r user with
      | none =>
        dsimp only
        unfold cleanup_user_locks
        rw [hod]
        exact ho
      | some od =>
        dsimp only
        unfold cleanup_user_locks
        rw [hod]
        dsimp only
        exact cancelNote_preserves_terminal _ od.order_id "Cleanup or expiration" now oid o
          (cancelNote_preserves_terminal db od.order_id "User unlocked all seats" now oid o
            ho hterm) hterm
  · intro st now
    unfold update_order_status
    rw [ho]
    dsimp only
    have hid : ({ o with
        status := st, updated_at := some now,
        completed_at := if st = OrderStatus.completed then some now
          else o.completed_at } : UserOrder).id = oid := getOrder_some_id db oid o ho
    exact getOrder_setOrder_found db _ o oid ho hid

/-- Witness for the amended C4 over the completed sample database. -/
theorem C4_terminal_state_invariant_amended_witness :
    (cancel_order completedDB "ord1" 600).1 = completedDB :=
  (C4_terminal_state_invariant_amended completedDB "ord1"
    (completedOrder sampleOrder "pi1" 100) (by rfl) (by decide) (by decide)).2.1 600

/-! ## C2 — finalize atomicity -/

/-- Any failing path of `complete_order` — and likewise the path on which
the inner transaction-service commit fails — leaves the durable store
exactly as it was (the session rollback). -/
theorem complete_order_rollback (db : DB) (oid pid : String) (pOk txnOk : Bool)
    (now : Nat) (e : CompleteErr)
    (h : (complete_order db oid pid pOk txnOk now).2 = .error e ∨ txnOk = false) :
    (complete_order db oid pid pOk txnOk now).1 = db := by
  unfold complete_order at h ⊢
  cases hdb : db.getOrder oid with
  | none => rfl
  | some o =>
    rw [hdb] at h
    dsimp only at h ⊢
    by_cases h1 : o.status ≠ OrderStatus.pending
    · rw [if_pos h1] at h ⊢
      split <;> rfl
    · rw [if_neg h1] at h ⊢
      by_cases h2 : paymentRefMismatch o pid = true
      · rw [if_pos h2]
      · rw [if_neg h2] at h ⊢
        by_cases h3 : (!pOk) = true
        · rw [if_pos h3]
        · rw [if_neg h3] at h ⊢
          unfold complete_order_txn at h ⊢
          by_cases h4 : (db.orderSeatAssignments o.id).isEmpty = true
          · rw [if_pos h4]
          · rw [if_neg h4] at h ⊢
            cases hit : issueTickets o db.bulkTickets (db.orderSeatAssignments o.id) now with
            | error e2 => rfl
            | ok pr =>
              rw [hit] at h
              rcases pr with ⟨bulks, newTickets⟩
              dsimp only at h ⊢
              by_cases h5 : txnOk = true
              · rw [if_pos h5] at h ⊢
                rcases h with h | h
                · split at h <;> simp at h
                · rw [h] at h5
                  simp at h5
              · rw [if_neg h5]

/-- C2: for a FinalizeOrder call, every failure inside the atomic block
(ticket creation, counter decrement, status flip, transaction update —
the last injected through `txnOk = false`) rolls the entire batch back:
the store is unchanged, the order keeps its PENDING row, no ticket is
persisted and no tier counter is decremented. -/
theorem C2_finalize_atomicity (db : DB) (oid pid : String) (pOk txnOk : Bool)
    (now : Nat) :
    (∀ e, (complete_order db oid pid pOk txnOk now).2 = .error e →
      (complete_order db oid pid pOk txnOk now).1 = db)
    ∧ (txnOk = false → (complete_order db oid pid pOk txnOk now).1 = db)
    ∧ (∀ e o, (complete_order db oid pid pOk txnOk now).2 = .error e →
        db.getOrder oid = some o →
        ((complete_order db oid pid pOk txnOk now).1.getOrder oid = some o
          ∧ (complete_order db oid pid pOk txnOk now).1.orderTickets oid
              = db.orderTickets oid
          ∧ (complete_order db oid pid pOk txnOk now).1.bulkTickets = db.bulkTickets)) := by
  refine ⟨fun e he => complete_order_rollback db oid pid pOk txnOk now e (Or.inl he),
    fun ht => complete_order_rollback db oid pid pOk txnOk now .orderNotFound (Or.inr ht),
    fun e o he ho => ?_⟩
  rw [complete_order_rollback db oid pid pOk txnOk now e (Or.inl he)]
  exact ⟨ho, rfl, rfl⟩

/-- Witness for C2 at the concrete oversold state: the call fails and
the store comes back untouched, the order still PENDING. -/
theorem C2_finalize_atomicity_witness :
    (complete_order oversoldDB "ord1" "pi1" true true 400).2 =
      .error (.internalError (.oversold 1))
    ∧ (complete_order oversoldDB "ord1" "pi1" true true 400).1.getOrder "ord1"
        = some sampleOrder
    ∧ (complete_order oversoldDB "ord1" "pi1" true true 400).1.orderTickets "ord1"
        = oversoldDB.orderTickets "ord1"
    ∧ (complete_order oversoldDB "ord1" "pi1" true true 400).1.bulkTickets
        = oversoldDB.bulkTickets :=
  ⟨rfl,
    ((C2_finalize_atomicity oversoldDB "ord1" "pi1" true true 400).2.2
      (.internalError (.oversold 1)) sampleOrder rfl (by rfl))⟩

/-! ## C1 — idempotent finalize -/

/-- Inversion of a finalize that returned a COMPLETED order: the stored
row equals the returned order and carries the supplied reference. -/
theorem complete_order_ok_completed (db db1 : DB) (oid pid : String)
    (pOk txnOk : Bool) (now : Nat) (o1 : UserOrder)
    (h : complete_order db oid pid pOk txnOk now = (db1, .ok o1))
    (hc : o1.status = OrderStatus.completed) :
    db1.getOrder oid = some o1 ∧ o1.stripe_payment_id = some pid := by
  unfold complete_order at h
  cases hdb : db.getOrder oid with
  | none => rw [hdb] at h; simp at h
  | some o =>
    rw [hdb] at h
    dsimp only at h
    by_cases h1 : o.status ≠ OrderStatus.pending
    · rw [if_pos h1] at h
      by_cases hcc : o.status = OrderStatus.completed ∧ o.stripe_payment_id = some pid
      · rw [if_pos hcc] at h
        obtain ⟨hd, ho⟩ := Prod.mk.injEq .. ▸ h
        have ho1 : o = o1 := by simpa using ho
        subst hd
        rw [← ho1]
        exact ⟨hdb, hcc.2⟩
      · rw [if_neg hcc] at h
        simp at h
    · rw [if_neg h1] at h
      push_neg at h1
      by_cases h2 : paymentRefMismatch o pid = true
      · rw [if_pos h2] at h; simp at h
      · rw [if_neg h2] at h
        by_cases h3 : (!pOk) = true
        · rw [if_pos h3] at h; simp at h
        · rw [if_neg h3] at h
          unfold complete_order_txn at h
          by_cases h4 : (db.orderSeatAssignments o.id).isEmpty = true
          · rw [if_pos h4] at h; simp at h
          · rw [if_neg h4] at h
            cases hit : issueTickets o db.bulkTickets (db.orderSeatAssignments o.id) now with
            | error e2 => rw [hit] at h; simp at h
            | ok pr =>
              rw [hit] at h
              rcases pr with ⟨bulks, newTickets⟩
              dsimp only at h
              by_cases h5 : txnOk = true
              · rw [if_pos h5] at h
                have hid : (completedOrder o pid now).id = oid := by
                  unfold completedOrder
                  exact getOrder_some_id db oid o hdb
                cases hft : ({ db.setOrder (completedOrder o pid now) with
                    tickets := db.tickets ++ newTickets,
                    bulkTickets := bulks } : DB).firstTransaction o.id with
                | some t =>
                  rw [hft] at h
                  obtain ⟨hd, ho⟩ := Prod.mk.injEq .. ▸ h
                  have ho1 : completedOrder o pid now = o1 := by simpa using ho
                  subst hd
                  rw [← ho1]
                  refine ⟨?_, rfl⟩
                  rw [getOrder_eq_of_orders _ ({ db.setOrder (completedOrder o pid now) with
                      tickets := db.tickets ++ newTickets, bulkTickets := bulks } : DB)
                    (orders_update_transaction_status _ _ _ _ _) oid]
                  exact getOrder_setOrder_found db _ o oid hdb hid
                | none =>
                  rw [hft] at h
                  obtain ⟨hd, ho⟩ := Prod.mk.injEq .. ▸ h
                  have ho1 : completedOrder o pid now = o1 := by simpa using ho
                  subst hd
                  rw [← ho1]
                  refine ⟨?_, rfl⟩
                  rw [getOrder_eq_of_orders _ ({ db.setOrder (completedOrder o pid now) with
                      tickets := db.tickets ++ newTickets, bulkTickets := bulks } : DB)
                    (orders_create_transaction _ _ _ _ _ _ _) oid]
                  exact getOrder_setOrder_found db _ o oid hdb hid
              · rw [if_neg h5] at h
                obtain ⟨hd, ho⟩ := Prod.mk.injEq .. ▸ h
                have ho1 : o = o1 := by simpa using ho
                rw [← ho1] at hc
                rw [h1] at hc
                simp at hc

/-- C1: once FinalizeOrder has returned a COMPLETED order, calling it
again with the same order id and payment reference returns the same
order over the same store — no durable write beyond reading, the single
ticket set untouched — and in general an order already COMPLETED with
the same stored payment reference is returned unchanged rather than
erroring. -/
theorem C1_idempotent_finalize (db db1 : DB) (oid pid : String)
    (pOk txnOk pOk2 txnOk2 : Bool) (now now2 : Nat) (o1 : UserOrder)
    (h : complete_order db oid pid pOk txnOk now = (db1, .ok o1))
    (hc : o1.status = OrderStatus.completed) :
    complete_order db1 oid pid pOk2 txnOk2 now2 = (db1, .ok o1)
    ∧ (complete_order db1 oid pid pOk2 txnOk2 now2).1.orderTickets oid
        = db1.orderTickets oid
    ∧ (∀ (d : DB) (o : UserOrder), d.getOrder oid = some o →
        o.status = OrderStatus.completed → o.stripe_payment_id = some pid →
        complete_order d oid pid pOk2 txnOk2 now2 = (d, .ok o)) := by
  obtain ⟨hget, hstripe⟩ :=
    complete_order_ok_completed db db1 oid pid pOk txnOk now o1 h hc
  have short : ∀ (d : DB) (o : UserOrder), d.getOrder oid = some o →
      o.status = OrderStatus.completed → o.stripe_payment_id = some pid →
      complete_order d oid pid pOk2 txnOk2 now2 = (d, .ok o) := by
    intro d o hd hst hsp
    unfold complete_order
    rw [hd]
    dsimp only
    rw [if_pos (by simp [hst]), if_pos ⟨hst, hsp⟩]
  have h2 := short db1 o1 hget hc hstripe
  exact ⟨h2, by rw [h2], short⟩

/-- Witness for C1: the second finalize of the completed sample order
returns the identical store and order. -/
theorem C1_idempotent_finalize_witness :
    complete_order completedDB "ord1" "pi1" true true 200 =
      (completedDB, .ok (completedOrder sampleOrder "pi1" 100)) :=
  (C1_idempotent_finalize sampleDB completedDB "ord1" "pi1" true true true true
    100 200 (completedOrder sampleOrder "pi1" 100) (by rfl) (by rfl)).1

/-! ## Lease-store frame lemmas -/

theorem getSeatLock_setSeatLock (r : Redis) (e e2 : Nat) (k k2 : String)
    (d : SeatLockData) :
    (r.setSeatLock e k d).getSeatLock e2 k2 =
      if (e2, k2) = (e, k) then some d else r.getSeatLock e2 k2 := by
  unfold Redis.setSeatLock Redis.getSeatLock
  exact alistGet_alistSet _ _ _ _

theorem getSeatLock_delSeatLock (r : Redis) (e e2 : Nat) (k k2 : String) :
    (r.delSeatLock e k).getSeatLock e2 k2 =
      if (e2, k2) = (e, k) then none else r.getSeatLock e2 k2 := by
  unfold Redis.delSeatLock Redis.getSeatLock
  exact alistGet_alistDel _ _ _

theorem userOrders_delSeatLock (r : Redis) (e : Nat) (k : String) :
    (r.delSeatLock e k).userOrders = r.userOrders := rfl

theorem userOrders_setSeatLock (r : Redis) (e : Nat) (k : String) (d : SeatLockData) :
    (r.setSeatLock e k d).userOrders = r.userOrders := rfl

theorem userOrders_unlock_specific_seats (r : Redis) (event : Nat)
    (seats : List SeatID) (user : String) :
    (unlock_specific_seats r event seats user).2.userOrders = r.userOrders := by
  induction seats generalizing r with
  | nil => rfl
  | cons a t ih =>
    unfold unlock_specific_seats
    cases hl : r.getSeatLock event a.to_string with
    | none => exact ih r
    | some ld =>
      dsimp only
      by_cases hu : ld.user_id == user
      · rw [if_pos hu]
        exact ih _
      · rw [if_neg hu]
        exact ih r

theorem getUserOrder_setUserOrder_self (r : Redis) (user : String) (d : RedisOrderData) :
    (r.setUserOrder user d).getUserOrder user = some d := by
  unfold Redis.setUserOrder Redis.getUserOrder
  rw [alistGet_alistSet]
  simp

/-! ## C10 — partial unlock cancels the whole pending order -/

/-- C10: an unlock request naming the user's current order and a proper
non-empty subset of its leased seats rewrites the Redis lease to the
remaining seats (same order id and expiry — the lease stays active), yet
the same call flips the still-PENDING durable order to CANCELLED and
overwrites its notes with the cancellation blob. -/
theorem C10_partial_unlock_cancels_order (db : DB) (r : Redis) (user : String)
    (oid : String) (reqSeats : List SeatID) (od : RedisOrderData) (o : UserOrder)
    (now : Nat)
    (hod : getUserOrderData r user = some od) (hoid : od.order_id = oid)
    (hne : reqSeats ≠ [])
    (hsub : seats_in_list reqSeats od.seat_ids = reqSeats)
    (hproper : reqSeats.length < od.seat_ids.length)
    (ho : db.getOrder oid = some o) (hp : o.status = OrderStatus.pending) :
    (unlock_seats db r user { order_id := some oid, seat_ids := some reqSeats } now).1
      = db.setOrder { o with
          status := OrderStatus.cancelled,
          notes := some (.cancellationNote "User unlocked seats" now) }
    ∧ ((unlock_seats db r user
          { order_id := some oid, seat_ids := some reqSeats } now).2.1).getUserOrder user
        = some { od with seat_ids := remove_seats_from_list reqSeats od.seat_ids }
    ∧ (unlock_seats db r user { order_id := some oid, seat_ids := some reqSeats } now).2.2
        = .ok { message := "Successfully unlocked " ++ toString reqSeats.length ++ " seats",
                unlocked_seat_ids := reqSeats } := by
  unfold unlock_seats
  rw [hod]
  dsimp only
  rw [if_neg (by simp [hoid])]
  have htruthy : seatListTruthy (some reqSeats) = true := by
    cases reqSeats with
    | nil => exact absurd rfl hne
    | cons a t => rfl
  rw [htruthy]
  dsimp only [Option.getD]
  rw [hsub]
  simp only [if_pos hproper, Bool.true_and, decide_eq_true_eq, if_true]
  refine ⟨?_, ?_, by trivial⟩
  · unfold cancelPendingOrderWithNote
    rw [ho]
    dsimp only
    rw [if_pos hp]
  · exact getUserOrder_setUserOrder_self _ user _

/-- Witness for C10: releasing one of Alice's three leased seats keeps a
two-seat lease active but cancels her pending order. -/
theorem C10_partial_unlock_cancels_order_witness :
    (unlock_seats sampleDB aliceRedis "alice"
        { order_id := some "ord1", seat_ids := some [seatG0] } 50).1
      = sampleDB.setOrder { sampleOrder with
          status := OrderStatus.cancelled,
          notes := some (.cancellationNote "User unlocked seats" 50) }
    ∧ ((unlock_seats sampleDB aliceRedis "alice"
          { order_id := some "ord1", seat_ids := some [seatG0] } 50).2.1).getUserOrder
        "alice" = some { aliceLease with seat_ids := [seatG1, seatG2] }
    ∧ (unlock_seats sampleDB aliceRedis "alice"
          { order_id := some "ord1", seat_ids := some [seatG0] } 50).2.2
        = .ok { message := "Successfully unlocked 1 seats",
                unlocked_seat_ids := [seatG0] } := by
  have h := C10_partial_unlock_cancels_order sampleDB aliceRedis "alice" "ord1"
    [seatG0] aliceLease sampleOrder 50 (by rfl) (by rfl) (by decide) (by rfl)
    (by decide) (by rfl) (by rfl)
  refine ⟨h.1, ?_, h.2.2⟩
  rw [h.2.1]
  rfl

/-! ## C9 — unhandled `payment_data` read in lock_seats -/

theorem getOrder_none_cancelNote (db : DB) (z reason : String) (now : Nat)
    (x : String) (h : db.getOrder x = none) :
    (cancelPendingOrderWithNote db z reason now).getOrder x = none := by
  unfold cancelPendingOrderWithNote
  cases hz : db.getOrder z with
  | none => exact h
  | some oz =>
    dsimp only
    by_cases hp : oz.status = OrderStatus.pending
    · rw [if_pos hp]
      have hzid : oz.id = z := getOrder_some_id db z oz hz
      have hzx : z ≠ x := by
        intro hcon
        rw [hcon, h] at hz
        cases hz
      rw [getOrder_setOrder_ne db _ x (by simpa [hzid] using hzx)]
      exact h
    · rw [if_neg hp]
      exact h

theorem getOrder_none_cleanup (db : DB) (r : Redis) (user : String) (now : Nat)
    (x : String) (h : db.getOrder x = none) :
    (cleanup_user_locks db r user now).2.1.getOrder x = none := by
  unfold cleanup_user_locks
  cases hod : getUserOrderData r user with
  | none => exact h
  | some od =>
    dsimp only
    exact getOrder_none_cancelNote db od.order_id _ now x h

theorem find?_append_orders (l1 l2 : List UserOrder) (p : UserOrder → Bool) :
    (l1 ++ l2).find? p = ((l1.find? p).orElse (fun _ => l2.find? p)) := by
  induction l1 with
  | nil => rfl
  | cons a t ih =>
    by_cases h : p a
    · rw [List.cons_append, List.find?_cons_of_pos _ h, List.find?_cons_of_pos _ h]
      rfl
    · rw [List.cons_append, List.find?_cons_of_neg _ h, List.find?_cons_of_neg _ h]
      exact ih

theorem getOrder_append_fresh (db : DB) (newOrder : UserOrder) (x : String)
    (h : db.getOrder x = none) (hid : newOrder.id = x) :
    ({ db with orders := db.orders ++ [newOrder] } : DB).getOrder x = some newOrder := by
  unfold DB.getOrder at h ⊢
  dsimp only
  rw [find?_append_orders, h]
  simp [List.find?_cons, hid]

theorem orders_addSeatAssignmentRows (event : Nat) (newOrderId : String)
    (assigns : List (Nat × List SeatID)) (db : DB) :
    (addSeatAssignmentRows event newOrderId assigns db).orders = db.orders := by
  unfold addSeatAssignmentRows
  induction assigns generalizing db with
  | nil => rfl
  | cons p t ih =>
    rw [List.foldl_cons, ih]
    cases h : db.getBulkTicket p.1 <;> rfl

/-- When the payment-intent call raises, the database block commits the
pending order and leaves `payment_data` unassigned. -/
theorem lock_block_raises (db1 : DB) (event : Nat) (user newOrderId : String)
    (total : Int) (assigns : List (Nat × List SeatID)) (now : Nat)
    (hfresh : db1.getOrder newOrderId = none) :
    (lock_seats_db_block db1 event user newOrderId total assigns .raises now).2.2 = none
    ∧ (lock_seats_db_block db1 event user newOrderId total assigns .raises now).2.1 = none
    ∧ (lock_seats_db_block db1 event user newOrderId total assigns .raises now).1.getOrder
        newOrderId = some (mkPendingOrder user newOrderId total assigns now) := by
  have hget : (addSeatAssignmentRows event newOrderId assigns
      ((create_transaction ({ db1 with orders := db1.orders ++
          [mkPendingOrder user newOrderId total assigns now] } : DB) newOrderId total
        "reservation" (some "Tickets locked/reserved") .pending now).1)).getOrder
      newOrderId = some (mkPendingOrder user newOrderId total assigns now) := by
    rw [getOrder_eq_of_orders _ ((create_transaction ({ db1 with orders := db1.orders ++
        [mkPendingOrder user newOrderId total assigns now] } : DB) newOrderId total
      "reservation" (some "Tickets locked/reserved") .pending now).1)
      (orders_addSeatAssignmentRows _ _ _ _) newOrderId]
    rw [getOrder_eq_of_orders _ ({ db1 with orders := db1.orders ++
        [mkPendingOrder user newOrderId total assigns now] } : DB)
      (orders_create_transaction _ _ _ _ _ _ _) newOrderId]
    exact getOrder_append_fresh db1 _ newOrderId hfresh rfl
  unfold lock_seats_db_block
  dsimp only
  rw [hget]
  dsimp only
  rw [ite_self]
  exact ⟨rfl, rfl, hget⟩

theorem userOrders_foldl_setSeatLock (seats : List SeatID) (r : Redis) (event : Nat)
    (f : SeatID → SeatLockData) :
    (seats.foldl (fun rr x => rr.setSeatLock event x.to_string (f x)) r).userOrders
      = r.userOrders := by
  induction seats generalizing r with
  | nil => rfl
  | cons a t ih =>
    rw [List.foldl_cons, ih]
    rfl

theorem getSeatLock_foldl_set_preserve (L seats : List SeatID) (r : Redis)
    (event : Nat) (f : SeatID → SeatLockData) (k : String)
    (hsub : ∀ x ∈ seats, x ∈ L)
    (h : ∃ s2, s2 ∈ L ∧ r.getSeatLock event k = some (f s2)) :
    ∃ s2, s2 ∈ L ∧
      (seats.foldl (fun rr x => rr.setSeatLock event x.to_string (f x)) r).getSeatLock
        event k = some (f s2) := by
  induction seats generalizing r with
  | nil => exact h
  | cons a t ih =>
    rw [List.foldl_cons]
    refine ih (r.setSeatLock event a.to_string (f a))
      (fun x hx => hsub x (List.mem_cons_of_mem a hx)) ?_
    by_cases hk : k = a.to_string
    · refine ⟨a, hsub a (List.mem_cons_self a t), ?_⟩
      rw [getSeatLock_setSeatLock]
      simp [hk]
    · obtain ⟨s2, hs2, hl⟩ := h
      refine ⟨s2, hs2, ?_⟩
      rw [getSeatLock_setSeatLock, if_neg (by simp [hk]), hl]

theorem getSeatLock_foldl_set_mem (seats : List SeatID) (r : Redis) (event : Nat)
    (f : SeatID → SeatLockData) (s : SeatID) (hs : s ∈ seats) :
    ∃ s2, s2 ∈ seats ∧
      (seats.foldl (fun rr x => rr.setSeatLock event x.to_string (f x)) r).getSeatLock
        event s.to_string = some (f s2) := by
  induction seats generalizing r with
  | nil => simp at hs
  | cons a t ih =>
    rw [List.foldl_cons]
    rcases List.mem_cons.mp hs with h | h
    · subst h
      apply getSeatLock_foldl_set_preserve (s :: t) t _ event f _
        (fun x hx => List.mem_cons_of_mem s hx)
      refine ⟨s, List.mem_cons_self s t, ?_⟩
      rw [getSeatLock_setSeatLock]
      simp
    · obtain ⟨s2, hs2, hl⟩ := ih _ h
      exact ⟨s2, List.mem_cons_of_mem a hs2, hl⟩

theorem alistGet_userOrders_setUserOrder (r : Redis) (user : String)
    (d : RedisOrderData) :
    alistGet (r.setUserOrder user d).userOrders user = some d :=
  getUserOrder_setUserOrder_self r user d

/-- C9: when the Stripe payment-intent call raises inside its inner try
(so the local `payment_data` is never assigned), `lock_seats` escapes
with the unhandled name error from reading `payment_data` outside every
try — after the Redis lease and the PENDING durable order have been
committed, and with neither rolled back. -/
theorem C9_lock_payment_data_name_error (db : DB) (r : Redis) (user : String)
    (req : LockSeatsRequest) (newOrderId : String) (now : Nat)
    (hsold : soldSeatIds db req.event_id req.seat_ids = [])
    (hconf : (check_seat_conflicts r req.event_id req.seat_ids user now).1 = [])
    (hassign : ∃ ta, computeAssignments
      (cleanup_user_locks db (check_seat_conflicts r req.event_id req.seat_ids user now).2
        user now).2.1 req = .ok ta)
    (hfresh : db.getOrder newOrderId = none) :
    (lock_seats db r user req newOrderId true true .raises now).2.2
      = .pythonNameError "payment_data"
    ∧ (∃ o, (lock_seats db r user req newOrderId true true .raises now).1.getOrder
        newOrderId = some o ∧ o.status = OrderStatus.pending ∧ o.firebase_uid = user)
    ∧ (∃ od2, alistGet
        (lock_seats db r user req newOrderId true true .raises now).2.1.userOrders user
        = some od2 ∧ od2.order_id = newOrderId ∧ od2.seat_ids = req.seat_ids)
    ∧ (∀ s ∈ req.seat_ids, ∃ ld,
        (lock_seats db r user req newOrderId true true .raises now).2.1.getSeatLock
          req.event_id s.to_string = some ld
        ∧ ld.user_id = user ∧ ld.order_id = newOrderId) := by
  obtain ⟨⟨total, assigns⟩, hA⟩ := hassign
  unfold lock_seats
  rw [hsold, if_neg (by simp)]
  rcases hcsc : check_seat_conflicts r req.event_id req.seat_ids user now with ⟨conf, r1⟩
  rw [hcsc] at hconf hA
  dsimp only at hconf hA ⊢
  subst hconf
  rw [if_neg (by simp)]
  rcases hcl : cleanup_user_locks db r1 user now with ⟨ul, db1, r2⟩
  rw [hcl] at hA
  dsimp only at hA ⊢
  rw [hA]
  dsimp only
  rw [if_neg (by simp)]
  rw [if_neg (by simp)]
  have hfresh1 : db1.getOrder newOrderId = none := by
    have := getOrder_none_cleanup db r1 user now newOrderId hfresh
    rw [hcl] at this
    exact this
  obtain ⟨hpd, hpi, hget⟩ := lock_block_raises db1 req.event_id user newOrderId total
    assigns now hfresh1
  rcases hblk : lock_seats_db_block db1 req.event_id user newOrderId total assigns
      .raises now with ⟨db5, pival, pdval⟩
  rw [hblk] at hpd hpi hget
  dsimp only at hpd hpi hget
  subst hpd
  subst hpi
  dsimp only
  refine ⟨rfl, ⟨mkPendingOrder user newOrderId total assigns now, hget, rfl, rfl⟩, ?_, ?_⟩
  · simp only [userOrders_foldl_setSeatLock, alistGet_userOrders_setUserOrder]
    exact ⟨_, rfl, rfl, rfl⟩
  · intro s hs
    obtain ⟨s2, _, hl⟩ := getSeatLock_foldl_set_mem req.seat_ids
      (r2.setUserOrder user _) req.event_id
      (fun s => mkSeatLockData user newOrderId s now (now + ORDER_EXPIRATION_SECONDS))
      s hs
    exact ⟨mkSeatLockData user newOrderId s2 now (now + ORDER_EXPIRATION_SECONDS),
      hl, rfl, rfl⟩

/-- Witness for C9: a lock over the sample store with a raising payment
call ends in the unhandled `payment_data` name error. -/
theorem C9_lock_payment_data_name_error_witness :
    (lock_seats sampleDB emptyRedis "alice"
      { seat_ids := [seatG2], event_id := 7, bulk_ticket_id := some 1 }
      "ordN" true true .raises 0).2.2 = .pythonNameError "payment_data" :=
  (C9_lock_payment_data_name_error sampleDB emptyRedis "alice"
    { seat_ids := [seatG2], event_id := 7, bulk_ticket_id := some 1 } "ordN" 0
    (by rfl) (by rfl) ⟨((1000 : Int), [(1, [seatG2])]), by rfl⟩ (by rfl)).1

/-! ## C6 — compensating rollback when the durable write fails -/

theorem tickets_bulk_cleanup (db : DB) (r : Redis) (user : String) (now : Nat) :
    (cleanup_user_locks db r user now).2.1.tickets = db.tickets
    ∧ (cleanup_user_locks db r user now).2.1.bulkTickets = db.bulkTickets := by
  unfold cleanup_user_locks cancelPendingOrderWithNote
  cases hod : getUserOrderData r user with
  | none => exact ⟨rfl, rfl⟩
  | some od =>
    dsimp only
    cases hz : db.getOrder od.order_id with
    | none => exact ⟨rfl, rfl⟩
    | some oz =>
      dsimp only
      by_cases hp : oz.status = OrderStatus.pending
      · rw [if_pos hp]
        exact ⟨rfl, rfl⟩
      · rw [if_neg hp]
        exact ⟨rfl, rfl⟩

theorem soldSeatIds_congr (d1 d2 : DB) (event : Nat) (seats : List SeatID)
    (ht : d1.tickets = d2.tickets) (hb : d1.bulkTickets = d2.bulkTickets) :
    soldSeatIds d1 event seats = soldSeatIds d2 event seats := by
  unfold soldSeatIds eventTickets
  rw [ht, hb]

theorem userOrders_foldl_delSeatLock (seats : List SeatID) (r : Redis) (event : Nat) :
    (seats.foldl (fun rr s => rr.delSeatLock event s.to_string) r).userOrders
      = r.userOrders := by
  induction seats generalizing r with
  | nil => rfl
  | cons a t ih =>
    rw [List.foldl_cons, ih]
    rfl

theorem alistGet_delUserOrder_self (r : Redis) (user : String) :
    alistGet (r.delUserOrder user).userOrders user = none := by
  unfold Redis.delUserOrder
  dsimp only
  rw [alistGet_alistDel]
  simp

theorem getSeatLock_foldl_del_none (seats : List SeatID) (r : Redis) (event : Nat)
    (k : String) (h : r.getSeatLock event k = none) :
    (seats.foldl (fun rr s => rr.delSeatLock event s.to_string) r).getSeatLock
      event k = none := by
  induction seats generalizing r with
  | nil => exact h
  | cons a t ih =>
    rw [List.foldl_cons]
    apply ih
    rw [getSeatLock_delSeatLock]
    by_cases hk : (event, k) = (event, a.to_string)
    · rw [if_pos hk]
    · rw [if_neg hk]
      exact h

theorem getSeatLock_foldl_del_mem (seats : List SeatID) (r : Redis) (event : Nat)
    (s : SeatID) (hs : s ∈ seats) :
    (seats.foldl (fun rr s => rr.delSeatLock event s.to_string) r).getSeatLock
      event s.to_string = none := by
  induction seats generalizing r with
  | nil => simp at hs
  | cons a t ih =>
    rw [List.foldl_cons]
    rcases List.mem_cons.mp hs with h | h
    · subst h
      apply getSeatLock_foldl_del_none
      rw [getSeatLock_delSeatLock, if_pos rfl]
    · exact ih _ h

theorem classifySeats_all_available (r : Redis) (event : Nat) (seats : List SeatID)
    (now : Nat) (h : ∀ s ∈ seats, r.getSeatLock event s.to_string = none) :
    classifySeats r event seats [] now = (seats, [], r) := by
  induction seats with
  | nil => rfl
  | cons a t ih =>
    unfold classifySeats
    have hfind : find_seat_in_list a [] = -1 := rfl
    rw [if_neg (by simp [hfind]), h a (List.mem_cons_self a t)]
    rw [ih (fun s hs => h s (List.mem_cons_of_mem a hs))]

/-- C6: when the durable order write fails after the Redis lease was
already written, `lock_seats` compensating-deletes the lease key and
every per-seat lock key before returning the 500-class `dbFail`; a
subsequent availability check for those seats therefore reports every
one of them available. -/
theorem C6_lock_rollback_on_db_failure (db : DB) (r : Redis) (user : String)
    (req : LockSeatsRequest) (newOrderId : String) (stripe : StripeOutcome)
    (now now2 : Nat)
    (hsold : soldSeatIds db req.event_id req.seat_ids = [])
    (hconf : (check_seat_conflicts r req.event_id req.seat_ids user now).1 = [])
    (hassign : ∃ ta, computeAssignments
      (cleanup_user_locks db (check_seat_conflicts r req.event_id req.seat_ids user now).2
        user now).2.1 req = .ok ta) :
    (lock_seats db r user req newOrderId true false stripe now).2.2 = .err .dbFail
    ∧ LockErr.statusCode .dbFail = 500
    ∧ alistGet (lock_seats db r user req newOrderId true false stripe now).2.1.userOrders
        user = none
    ∧ (∀ s ∈ req.seat_ids,
        (lock_seats db r user req newOrderId true false stripe now).2.1.getSeatLock
          req.event_id s.to_string = none)
    ∧ (check_seat_availability (lock_seats db r user req newOrderId true false stripe now).1
        (lock_seats db r user req newOrderId true false stripe now).2.1
        req.event_id req.seat_ids now2).2
      = { event_id := req.event_id, available_seats := req.seat_ids,
          locked_seats := [], unavailable_seats := [] } := by
  obtain ⟨⟨total, assigns⟩, hA⟩ := hassign
  unfold lock_seats
  rw [hsold, if_neg (by simp)]
  rcases hcsc : check_seat_conflicts r req.event_id req.seat_ids user now with ⟨conf, r1⟩
  rw [hcsc] at hconf hA
  dsimp only at hconf hA ⊢
  subst hconf
  rw [if_neg (by simp)]
  rcases hcl : cleanup_user_locks db r1 user now with ⟨ul, db1, r2⟩
  rw [hcl] at hA
  dsimp only at hA ⊢
  rw [hA]
  dsimp only
  rw [if_neg (by simp)]
  rw [if_pos (by simp)]
  have hsold1 : soldSeatIds db1 req.event_id req.seat_ids = [] := by
    have hp := tickets_bulk_cleanup db r1 user now
    rw [hcl] at hp
    rw [soldSeatIds_congr db1 db req.event_id req.seat_ids hp.1 hp.2]
    exact hsold
  have hlocks : ∀ s ∈ req.seat_ids,
      (req.seat_ids.foldl (fun rr s => rr.delSeatLock req.event_id s.to_string)
        (Redis.delUserOrder (req.seat_ids.foldl
          (fun rr s => rr.setSeatLock req.event_id s.to_string
            (mkSeatLockData user newOrderId s now (now + ORDER_EXPIRATION_SECONDS)))
          (r2.setUserOrder user
            { order_id := newOrderId, user_id := user, event_id := req.event_id,
              seat_ids := req.seat_ids,
              bulk_ticket_info :=
                (match req.bulk_ticket_id with
                  | some bid => (db1.getBulkTicket bid).map (fun b =>
                      { bulk_ticket_id := b.id, price_per_seat := b.price,
                        seat_type := b.seat_type })
                  | none => none),
              status := "locked", created_at := now,
              expires_at := now + ORDER_EXPIRATION_SECONDS })) user)).getSeatLock
        req.event_id s.to_string = none :=
    fun s hs => getSeatLock_foldl_del_mem req.seat_ids _ req.event_id s hs
  refine ⟨rfl, rfl, ?_, ?_, ?_⟩
  · rw [userOrders_foldl_delSeatLock]
    exact alistGet_delUserOrder_self _ user
  · intro s hs
    exact hlocks s hs
  · unfold check_seat_availability
    dsimp only
    rw [hsold1]
    rw [classifySeats_all_available _ req.event_id req.seat_ids now2
      (fun s hs => hlocks s hs)]

/-- Witness for C6: a failed durable write for a one-seat lock leaves the
seat available again. -/
theorem C6_lock_rollback_on_db_failure_witness :
    (lock_seats sampleDB emptyRedis "alice"
      { seat_ids := [seatG2], event_id := 7, bulk_ticket_id := some 1 }
      "ordN" true false .raises 0).2.2 = .err .dbFail
    ∧ (check_seat_availability
        (lock_seats sampleDB emptyRedis "alice"
          { seat_ids := [seatG2], event_id := 7, bulk_ticket_id := some 1 }
          "ordN" true false .raises 0).1
        (lock_seats sampleDB emptyRedis "alice"
          { seat_ids := [seatG2], event_id := 7, bulk_ticket_id := some 1 }
          "ordN" true false .raises 0).2.1
        7 [seatG2] 40).2
      = { event_id := 7, available_seats := [seatG2],
          locked_seats := [], unavailable_seats := [] } := by
  have h := C6_lock_rollback_on_db_failure sampleDB emptyRedis "alice"
    { seat_ids := [seatG2], event_id := 7, bulk_ticket_id := some 1 } "ordN"
    .raises 0 40 (by rfl) (by rfl) ⟨((1000 : Int), [(1, [seatG2])]), by rfl⟩
  exact ⟨h.1, h.2.2.2.2⟩

/-! ## C5 — lock conflict rule -/

theorem hasOtherValidLock_del_expired (r : Redis) (event : Nat) (user : String)
    (now : Nat) (k : String) (ld : SeatLockData)
    (hld : r.getSeatLock event k = some ld) (hexp : ¬ now < ld.expires_at) :
    ∀ s2, hasOtherValidLock (r.delSeatLock event k) event user now s2
      = hasOtherValidLock r event user now s2 := by
  intro s2
  unfold hasOtherValidLock
  rw [getSeatLock_delSeatLock]
  by_cases hk : ((event, s2.to_string) : Nat × String) = (event, k)
  · rw [if_pos hk]
    have hkk : s2.to_string = k := congrArg Prod.snd hk
    rw [hkk, hld]
    simp [hexp]
  · rw [if_neg hk]

theorem hasOtherValidLock_iff (r : Redis) (event : Nat) (user : String)
    (now : Nat) (s : SeatID) :
    hasOtherValidLock r event user now s = true ↔
      ∃ ld, r.getSeatLock event s.to_string = some ld ∧ ld.user_id ≠ user
        ∧ now < ld.expires_at := by
  unfold hasOtherValidLock
  cases hl : r.getSeatLock event s.to_string with
  | none => simp
  | some ld => simp

theorem check_seat_conflicts_fst (r : Redis) (event : Nat) (seats : List SeatID)
    (user : String) (now : Nat) :
    (check_seat_conflicts r event seats user now).1
      = seats.filter (hasOtherValidLock r event user now) := by
  induction seats generalizing r with
  | nil => rfl
  | cons s rest ih =>
    unfold check_seat_conflicts
    rw [List.filter_cons]
    cases hl : r.getSeatLock event s.to_string with
    | none =>
      dsimp only
      rw [if_neg (by unfold hasOtherValidLock; rw [hl]; simp)]
      exact ih r
    | some ld =>
      dsimp only
      by_cases hu : ld.user_id ≠ user
      · rw [if_pos hu]
        by_cases hv : now < ld.expires_at
        · rw [if_pos hv]
          rcases he : check_seat_conflicts r event rest user now with ⟨cs, r2⟩
          dsimp only
          rw [if_pos (by unfold hasOtherValidLock; rw [hl]; simp [hu, hv])]
          have := ih r
          rw [he] at this
          dsimp only at this
          rw [this]
        · rw [if_neg hv]
          rw [if_neg (by unfold hasOtherValidLock; rw [hl]; simp [hv])]
          rw [ih]
          exact List.filter_congr (fun x _ =>
            hasOtherValidLock_del_expired r event user now s.to_string ld hl hv x)
      · rw [if_neg hu]
        rw [if_neg (by
          unfold hasOtherValidLock
          rw [hl]
          push_neg at hu
          simp [hu])]
        exact ih r

theorem check_seat_conflicts_preserves_none (r : Redis) (event : Nat)
    (seats : List SeatID) (user : String) (now : Nat) (k : String)
    (h : r.getSeatLock event k = none) :
    (check_seat_conflicts r event seats user now).2.getSeatLock event k = none := by
  induction seats generalizing r with
  | nil => exact h
  | cons s rest ih =>
    unfold check_seat_conflicts
    cases hl : r.getSeatLock event s.to_string with
    | none =>
      dsimp only
      exact ih r h
    | some ld =>
      dsimp only
      by_cases hu : ld.user_id ≠ user
      · rw [if_pos hu]
        by_cases hv : now < ld.expires_at
        · rw [if_pos hv]
          rcases he : check_seat_conflicts r event rest user now with ⟨cs, r2⟩
          dsimp only
          have := ih r h
          rw [he] at this
          exact this
        · rw [if_neg hv]
          apply ih
          rw [getSeatLock_delSeatLock]
          by_cases hk : ((event, k) : Nat × String) = (event, s.to_string)
          · rw [if_pos hk]
          · rw [if_neg hk]
            exact h
      · rw [if_neg hu]
        exact ih r h

theorem check_seat_conflicts_deletes_expired (r : Redis) (event : Nat)
    (seats : List SeatID) (user : String) (now : Nat) (s : SeatID) (hs : s ∈ seats)
    (ld : SeatLockData) (hld : r.getSeatLock event s.to_string = some ld)
    (hother : ld.user_id ≠ user) (hexp : ¬ now < ld.expires_at) :
    (check_seat_conflicts r event seats user now).2.getSeatLock event s.to_string
      = none := by
  induction seats generalizing r with
  | nil => simp at hs
  | cons a rest ih =>
    unfold check_seat_conflicts
    rcases List.mem_cons.mp hs with hsa | hsr
    · subst hsa
      rw [hld]
      dsimp only
      rw [if_pos hother, if_neg hexp]
      apply check_seat_conflicts_preserves_none
      rw [getSeatLock_delSeatLock, if_pos rfl]
    · cases hl : r.getSeatLock event a.to_string with
      | none =>
        dsimp only
        exact ih r hsr hld
      | some ld2 =>
        dsimp only
        by_cases hu : ld2.user_id ≠ user
        · rw [if_pos hu]
          by_cases hv : now < ld2.expires_at
          · rw [if_pos hv]
            rcases he : check_seat_conflicts r event rest user now with ⟨cs, r2⟩
            dsimp only
            have := ih r hsr hld
            rw [he] at this
            exact this
          · rw [if_neg hv]
            by_cases hk : ((event, s.to_string) : Nat × String) = (event, a.to_string)
            · exact check_seat_conflicts_preserves_none _ event rest user now _
                (by rw [getSeatLock_delSeatLock, if_pos hk])
            · exact ih (r.delSeatLock event a.to_string) hsr
                (by rw [getSeatLock_delSeatLock, if_neg hk]; exact hld)
        · rw [if_neg hu]
          exact ih r hsr hld

/-- Once the sold-seat and conflict checks pass, no later branch of
`lock_seats` produces a `seatsLocked` failure. -/
theorem lock_seats_no_late_seatsLocked (db : DB) (r : Redis) (user : String)
    (req : LockSeatsRequest) (newOrderId : String) (redisOk dbOk : Bool)
    (stripe : StripeOutcome) (now : Nat)
    (hsold : soldSeatIds db req.event_id req.seat_ids = [])
    (hconf0 : (check_seat_conflicts r req.event_id req.seat_ids user now).1 = []) :
    ∀ cs, (lock_seats db r user req newOrderId redisOk dbOk stripe now).2.2
      ≠ .err (.seatsLocked cs) := by
  intro cs
  unfold lock_seats
  rw [hsold, if_neg (by simp)]
  rcases hcsc : check_seat_conflicts r req.event_id req.seat_ids user now with ⟨conf, r1⟩
  rw [hcsc] at hconf0
  dsimp only at hconf0 ⊢
  subst hconf0
  rw [if_neg (by simp)]
  rcases hcl : cleanup_user_locks db r1 user now with ⟨ul, db1, r2⟩
  dsimp only
  cases hA : computeAssignments db1 req with
  | error sect => simp
  | ok ta =>
    rcases ta with ⟨total, assigns⟩
    dsimp only
    cases redisOk with
    | false => simp
    | true =>
      rw [if_neg (by simp)]
      cases dbOk with
      | false =>
        rw [if_pos (by simp)]
        simp
      | true =>
        rw [if_neg (by simp)]
        rcases hblk : lock_seats_db_block db1 req.event_id user newOrderId total
            assigns stripe now with ⟨db5, piv, pdv⟩
        dsimp only
        cases pdv with
        | none => simp
        | some pd =>
          dsimp only
          cases hcs : pd.client_secret with
          | none => simp
          | some cs2 => simp

/-- C5: provided the sold-seat guard passes, a Lock request fails with a
SeatsLockedConflict naming exactly the offending seats if and only if
some requested seat is covered by another user's still-valid lease at
validation time; an expired competing lease is treated as absent and its
per-seat entry opportunistically deleted; and a seat whose lock belongs
to the caller never appears in the conflict list. -/
theorem C5_lock_conflict_rule (db : DB) (r : Redis) (user : String)
    (req : LockSeatsRequest) (newOrderId : String) (redisOk dbOk : Bool)
    (stripe : StripeOutcome) (now : Nat)
    (hsold : soldSeatIds db req.event_id req.seat_ids = []) :
    (∀ cs, (lock_seats db r user req newOrderId redisOk dbOk stripe now).2.2
        = .err (.seatsLocked cs) →
      cs = req.seat_ids.filter (hasOtherValidLock r req.event_id user now))
    ∧ ((∃ cs, (lock_seats db r user req newOrderId redisOk dbOk stripe now).2.2
          = .err (.seatsLocked cs))
        ↔ ∃ s ∈ req.seat_ids, ∃ ld,
            r.getSeatLock req.event_id s.to_string = some ld
            ∧ ld.user_id ≠ user ∧ now < ld.expires_at)
    ∧ (∀ s ∈ req.seat_ids, ∀ ld,
        r.getSeatLock req.event_id s.to_string = some ld → ld.user_id ≠ user →
        ¬ now < ld.expires_at →
        (check_seat_conflicts r req.event_id req.seat_ids user now).2.getSeatLock
          req.event_id s.to_string = none)
    ∧ (∀ cs s ld, (lock_seats db r user req newOrderId redisOk dbOk stripe now).2.2
        = .err (.seatsLocked cs) →
        r.getSeatLock req.event_id s.to_string = some ld → ld.user_id = user →
        s ∉ cs) := by
  have hchar := check_seat_conflicts_fst r req.event_id req.seat_ids user now
  by_cases hfe : req.seat_ids.filter (hasOtherValidLock r req.event_id user now) = []
  · have hnc := lock_seats_no_late_seatsLocked db r user req newOrderId redisOk dbOk
      stripe now hsold (by rw [hchar, hfe])
    refine ⟨fun cs h => absurd h (hnc cs), ⟨?_, ?_⟩, ?_,
      fun cs s ld h _ _ => absurd h (hnc cs)⟩
    · rintro ⟨cs, h⟩
      exact absurd h (hnc cs)
    · rintro ⟨s, hs, ld, hld, hu, hv⟩
      exfalso
      have hp : hasOtherValidLock r req.event_id user now s = true :=
        (hasOtherValidLock_iff r req.event_id user now s).mpr ⟨ld, hld, hu, hv⟩
      exact (List.filter_eq_nil_iff.mp hfe s hs) hp
    · intro s hs ld hld hu hv
      exact check_seat_conflicts_deletes_expired r req.event_id req.seat_ids user now
        s hs ld hld hu hv
  · have houtcome : (lock_seats db r user req newOrderId redisOk dbOk stripe now).2.2
        = .err (.seatsLocked (req.seat_ids.filter
            (hasOtherValidLock r req.event_id user now))) := by
      unfold lock_seats
      rw [hsold, if_neg (by simp)]
      rcases hcsc : check_seat_conflicts r req.event_id req.seat_ids user now
        with ⟨conf, r1⟩
      rw [hcsc] at hchar
      dsimp only at hchar ⊢
      subst hchar
      rw [if_pos hfe]
    refine ⟨?_, ⟨?_, ?_⟩, ?_, ?_⟩
    · intro cs h
      rw [houtcome] at h
      simp only [LockOutcome.err.injEq, LockErr.seatsLocked.injEq] at h
      exact h.symm
    · intro _
      obtain ⟨s, hsmem⟩ := List.exists_mem_of_ne_nil _ hfe
      have hsp := List.mem_filter.mp hsmem
      obtain ⟨ld, hld, hu, hv⟩ :=
        (hasOtherValidLock_iff r req.event_id user now s).mp hsp.2
      exact ⟨s, hsp.1, ld, hld, hu, hv⟩
    · intro _
      exact ⟨_, houtcome⟩
    · intro s hs ld hld hu hv
      exact check_seat_conflicts_deletes_expired r req.event_id req.seat_ids user now
        s hs ld hld hu hv
    · intro cs s ld h hld huser
      rw [houtcome] at h
      simp only [LockOutcome.err.injEq, LockErr.seatsLocked.injEq] at h
      intro hmem
      rw [← h] at hmem
      have hsp := (List.mem_filter.mp hmem).2
      obtain ⟨ld2, hld2, hu2, _⟩ :=
        (hasOtherValidLock_iff r req.event_id user now s).mp hsp
      rw [hld] at hld2
      exact hu2 ((Option.some.inj hld2) ▸ huser)

/-- Witness for C5: Bob's still-valid lock on the first seat makes
Alice's lock request fail with the conflict naming that seat. -/
theorem C5_lock_conflict_rule_witness :
    (lock_seats sampleDB conflictRedis "alice"
      { seat_ids := [seatG0, seatG1], event_id := 7, bulk_ticket_id := some 1 }
      "ordN" true true .raises 100).2.2 = .err (.seatsLocked [seatG0]) := by
  have h := (C5_lock_conflict_rule sampleDB conflictRedis "alice"
    { seat_ids := [seatG0, seatG1], event_id := 7, bulk_ticket_id := some 1 }
    "ordN" true true .raises 100 (by rfl)).2.1.mpr
    ⟨seatG0, by decide, bobLock, by rfl, by decide, by decide⟩
  obtain ⟨cs, hcs⟩ := h
  have := (C5_lock_conflict_rule sampleDB conflictRedis "alice"
    { seat_ids := [seatG0, seatG1], event_id := 7, bulk_ticket_id := some 1 }
    "ordN" true true .raises 100 (by rfl)).1 cs hcs
  rw [hcs, this]
  rfl

/-! ## C7 — the expiry reaper -/

theorem find?_txnid_of_nodup (l : List Transactions) (t : Transactions)
    (hmem : t ∈ l) (hnd : (l.map (fun x => x.transaction_id)).Nodup) :
    l.find? (fun x => x.transaction_id == t.transaction_id) = some t := by
  induction l with
  | nil => simp at hmem
  | cons a rest ih =>
    simp only [List.map_cons, List.nodup_cons] at hnd
    rcases List.mem_cons.mp hmem with h | h
    · subst h
      simp [List.find?_cons]
    · have hane : ¬ (a.transaction_id = t.transaction_id) := fun hc =>
        hnd.1 (hc ▸ List.mem_map_of_mem (fun x => x.transaction_id) h)
      rw [List.find?_cons_of_neg _ (by simpa using hane)]
      exact ih h hnd.2

theorem mem_txnid_unique (l : List Transactions) (x t : Transactions)
    (hnd : (l.map (fun x => x.transaction_id)).Nodup)
    (hx : x ∈ l) (ht : t ∈ l) (h : x.transaction_id = t.transaction_id) : x = t :=
  List.inj_on_of_nodup_map hnd hx ht h

theorem transactions_update_expire (d : DB) (t : Transactions) (now : Nat)
    (ht : t ∈ d.transactions)
    (htx : (d.transactions.map (fun x => x.transaction_id)).Nodup) :
    (update_transaction_status d t.transaction_id .failed
        (some "Order expired") now).1.transactions
      = d.transactions.map (fun x =>
          if x.transaction_id = t.transaction_id then expireTxn now x else x) := by
  unfold update_transaction_status
  rw [find?_txnid_of_nodup d.transactions t ht htx]
  dsimp only
  apply List.map_congr_left
  intro x hx
  by_cases h : x.transaction_id == t.transaction_id
  · rw [if_pos h, if_pos (by simpa using h)]
    have hxt : x = t := mem_txnid_unique d.transactions x t htx hx ht (by simpa using h)
    subst hxt
    rfl
  · rw [if_neg h, if_neg (by simpa using h)]

theorem foldl_update_expire (ts : List Transactions) (d : DB) (now : Nat)
    (hsub : ∀ t ∈ ts, t ∈ d.transactions)
    (hts : (ts.map (fun x => x.transaction_id)).Nodup)
    (htx : (d.transactions.map (fun x => x.transaction_id)).Nodup) :
    (ts.foldl (fun dd t => (update_transaction_status dd t.transaction_id .failed
        (some "Order expired") now).1) d).transactions
      = d.transactions.map (fun x =>
          if x.transaction_id ∈ ts.map (fun t => t.transaction_id)
          then expireTxn now x else x) := by
  induction ts generalizing d with
  | nil =>
    simp only [List.foldl_nil, List.map_nil, List.not_mem_nil, if_false]
    exact (List.map_id' d.transactions).symm
  | cons t rest ih =>
    simp only [List.map_cons, List.nodup_cons] at hts
    rw [List.foldl_cons]
    have hone := transactions_update_expire d t now (hsub t (List.mem_cons_self t rest)) htx
    have htid : ((update_transaction_status d t.transaction_id .failed
        (some "Order expired") now).1.transactions.map (fun x => x.transaction_id))
        = d.transactions.map (fun x => x.transaction_id) := by
      rw [hone, List.map_map]
      apply List.map_congr_left
      intro x _
      by_cases h : x.transaction_id = t.transaction_id
      · simp [Function.comp, h, expireTxn]
      · simp [Function.comp, h]
    have hsub1 : ∀ u ∈ rest,
        u ∈ (update_transaction_status d t.transaction_id .failed
          (some "Order expired") now).1.transactions := by
      intro u hu
      rw [hone]
      refine List.mem_map.mpr ⟨u, hsub u (List.mem_cons_of_mem t hu), ?_⟩
      rw [if_neg (fun hc => hts.1 (by
        rw [← hc]
        exact List.mem_map_of_mem (fun x => x.transaction_id) hu))]
    rw [ih _ hsub1 hts.2 (by rw [htid]; exact htx)]
    rw [hone, List.map_map]
    apply List.map_congr_left
    intro x hx
    simp only [Function.comp]
    by_cases h : x.transaction_id = t.transaction_id
    · rw [if_pos h]
      have h2 : (expireTxn now x).transaction_id ∉
          rest.map (fun t => t.transaction_id) := by
        rw [show (expireTxn now x).transaction_id = x.transaction_id from rfl, h]
        exact hts.1
      rw [if_neg h2]
      rw [if_pos (by rw [List.map_cons, h]; exact List.mem_cons_self _ _)]
    · rw [if_neg h]
      by_cases hr : x.transaction_id ∈ rest.map (fun t => t.transaction_id)
      · rw [if_pos hr, if_pos (by rw [List.map_cons]; exact List.mem_cons_of_mem _ hr)]
      · rw [if_neg hr, if_neg (by
          rw [List.map_cons]
          intro hm
          rcases List.mem_cons.mp hm with hm | hm
          · exact h hm
          · exact hr hm)]

theorem filter_map_orderpres (l : List Transactions) (f : Transactions → Transactions)
    (hf : ∀ x, (f x).order_id = x.order_id) (z : String) :
    (l.map f).filter (fun t => t.order_id == z)
      = (l.filter (fun t => t.order_id == z)).map f := by
  induction l with
  | nil => rfl
  | cons a rest ih =>
    simp only [List.map_cons, List.filter_cons]
    by_cases h : a.order_id = z
    · rw [if_pos (by simpa [hf] using h), if_pos (by simpa using h), List.map_cons, ih]
    · rw [if_neg (by simpa [hf] using h), if_neg (by simpa using h), ih]

theorem orderTransactions_eq_list (d1 : DB) (l : List Transactions)
    (h : d1.transactions = l) (x : String) :
    d1.orderTransactions x = l.filter (fun t => t.order_id == x) := by
  unfold DB.orderTransactions
  rw [h]

theorem le_foldr_max (l : List Nat) (a : Nat) (ha : a ∈ l) : a ≤ l.foldr max 0 := by
  induction l with
  | nil => simp at ha
  | cons b t ih =>
    rcases List.mem_cons.mp ha with h | h
    · subst h
      exact le_max_left a _
    · exact le_trans (ih h) (le_max_right b _)

theorem freshTxnId_not_mem (db : DB) (t : Transactions) (ht : t ∈ db.transactions) :
    t.transaction_id ≠ freshTxnId db := by
  unfold freshTxnId
  have h := le_foldr_max (db.transactions.map (fun t => t.transaction_id))
    t.transaction_id (List.mem_map_of_mem _ ht)
  omega

theorem nodup_tid_orderTransactions (d : DB) (z : String)
    (htx : (d.transactions.map (fun t => t.transaction_id)).Nodup) :
    ((d.orderTransactions z).map (fun t => t.transaction_id)).Nodup :=
  htx.sublist ((List.filter_sublist d.transactions).map _)

/-- The transaction row appended by `create_transaction`. -/
def mkTxnRow (d : DB) (oid : String) (amount : Int) (method : String)
    (ref : Option String) (st : TransactionStatus) (now : Nat) : Transactions :=
  { transaction_id := freshTxnId d, order_id := oid, amount := amount,
    payment_method := method, transaction_reference := ref, status := st,
    created_at := now, updated_at := none }

theorem create_transaction_found (d : DB) (oid : String) (amount : Int)
    (method : String) (ref : Option String) (st : TransactionStatus) (now : Nat)
    (o : UserOrder) (ho : d.getOrder oid = some o) :
    (create_transaction d oid amount method ref st now).1
      = { d with transactions := d.transactions ++ [mkTxnRow d oid amount method ref st now] } := by
  unfold create_transaction
  rw [ho]
  rfl

theorem orderTransactions_append_row (d : DB) (nt : Transactions) (x : String) :
    ({ d with transactions := d.transactions ++ [nt] } : DB).orderTransactions x
      = d.orderTransactions x ++ (if nt.order_id = x then [nt] else []) := by
  unfold DB.orderTransactions
  dsimp only
  rw [List.filter_append, List.filter_cons]
  by_cases h : nt.order_id = x
  · rw [if_pos (by simpa using h), if_pos h]
    rfl
  · rw [if_neg (by simpa using h), if_neg h]
    rfl

/-- The complete effect of `expireOne` on an order found in the store:
the order flips to EXPIRED with the update timestamp; its transactions
are either all updated in place or a single automatic-expiry row is
created; every other order and its transactions are untouched; the
transaction-id profile stays duplicate-free and the order-id profile is
unchanged. -/
theorem expireOne_effect (d : DB) (o : UserOrder) (now : Nat)
    (ho : d.getOrder o.id = some o)
    (htx : (d.transactions.map (fun t => t.transaction_id)).Nodup) :
    ((expireOne d o.id now).getOrder o.id
      = some { o with status := OrderStatus.expired, updated_at := some now })
    ∧ (if d.orderTransactions o.id = [] then
        ∃ t, (expireOne d o.id now).orderTransactions o.id = [t]
          ∧ isAutoExpiryTxn o now t
       else (expireOne d o.id now).orderTransactions o.id
         = (d.orderTransactions o.id).map (expireTxn now))
    ∧ (∀ x, x ≠ o.id → (expireOne d o.id now).getOrder x = d.getOrder x
        ∧ (expireOne d o.id now).orderTransactions x = d.orderTransactions x)
    ∧ ((expireOne d o.id now).transactions.map (fun t => t.transaction_id)).Nodup
    ∧ (expireOne d o.id now).orders.map (fun x => x.id)
        = d.orders.map (fun x => x.id) := by
  have hoid : ({ o with status := OrderStatus.expired, updated_at := some now } : UserOrder).id = o.id := rfl
  have hget1 : (d.setOrder { o with status := OrderStatus.expired, updated_at := some now }).getOrder o.id
      = some { o with status := OrderStatus.expired, updated_at := some now } :=
    getOrder_setOrder_found d _ o o.id ho hoid
  unfold expireOne
  rw [ho]
  dsimp only
  unfold updateOrCreateOrderTxns
  rw [show (d.setOrder { o with status := OrderStatus.expired, updated_at := some now }).orderTransactions o.id
    = d.orderTransactions o.id from rfl]
  by_cases hemp : (d.orderTransactions o.id).isEmpty
  · rw [if_pos hemp]
    have hnil : d.orderTransactions o.id = [] := List.isEmpty_iff.mp hemp
    rw [create_transaction_found _ o.id o.total_amount "system"
      (some "Order expired automatically") .failed now
      ({ o with status := OrderStatus.expired, updated_at := some now }) hget1]
    refine ⟨?_, ?_, ?_, ?_, ?_⟩
    · exact hget1
    · rw [if_pos hnil]
      refine ⟨mkTxnRow (d.setOrder { o with status := OrderStatus.expired, updated_at := some now })
        o.id o.total_amount "system"
        (some "Order expired automatically") .failed now, ?_, rfl, rfl, rfl, rfl, rfl, rfl⟩
      rw [orderTransactions_append_row]
      rw [show (d.setOrder { o with status := OrderStatus.expired, updated_at := some now }).orderTransactions o.id
        = d.orderTransactions o.id from rfl, hnil]
      simp only [mkTxnRow]
      rw [if_pos trivial]
      rfl
    · intro x hx
      constructor
      · exact getOrder_setOrder_ne d _ x (by simpa [hoid] using (fun hc => hx hc.symm))
      · rw [orderTransactions_append_row, if_neg (fun hc => hx hc.symm)]
        rw [List.append_nil]
        rfl
    · show ((_ ++ [_] : List Transactions).map (fun t => t.transaction_id)).Nodup
      rw [List.map_append]
      refine List.Nodup.append htx (List.nodup_singleton _) ?_
      intro a ha hb
      simp only [List.map_cons, List.map_nil, List.mem_singleton] at hb
      obtain ⟨u, hu, hua⟩ := List.mem_map.mp ha
      subst hb
      exact freshTxnId_not_mem _ u hu (by rw [hua]; rfl)
    · exact orders_map_id_setOrder d _
  · rw [if_neg hemp]
    have hnnil : ¬ (d.orderTransactions o.id = []) := fun hc =>
      hemp (List.isEmpty_iff.mpr hc)
    have hsub : ∀ t ∈ d.orderTransactions o.id,
        t ∈ (d.setOrder { o with status := OrderStatus.expired, updated_at := some now }).transactions :=
      fun t ht => List.mem_of_mem_filter ht
    have hts := nodup_tid_orderTransactions d o.id htx
    have hF := foldl_update_expire (d.orderTransactions o.id)
      (d.setOrder { o with status := OrderStatus.expired, updated_at := some now })
      now hsub hts htx
    have hFordpres : ∀ x : Transactions,
        ((fun x => if x.transaction_id ∈ ((d.orderTransactions o.id).map
            (fun t => t.transaction_id)) then expireTxn now x else x) x).order_id
          = x.order_id := by
      intro x
      dsimp only
      by_cases h : x.transaction_id ∈ (d.orderTransactions o.id).map
        (fun t => t.transaction_id)
      · rw [if_pos h]
        rfl
      · rw [if_neg h]
    have hFtrans : (List.foldl (fun dd t => (update_transaction_status dd
        t.transaction_id .failed (some "Order expired") now).1)
        (d.setOrder { o with status := OrderStatus.expired, updated_at := some now })
        (d.orderTransactions o.id)).transactions
        = d.transactions.map (fun x => if x.transaction_id ∈
            ((d.orderTransactions o.id).map (fun t => t.transaction_id))
          then expireTxn now x else x) := hF
    have htid2 : ((d.transactions.map (fun x =>
        if x.transaction_id ∈ ((d.orderTransactions o.id).map
          (fun t => t.transaction_id)) then expireTxn now x else x)).map
          (fun t => t.transaction_id)) = d.transactions.map (fun t => t.transaction_id) := by
      rw [List.map_map]
      apply List.map_congr_left
      intro x _
      simp only [Function.comp]
      by_cases h : x.transaction_id ∈ (d.orderTransactions o.id).map
        (fun t => t.transaction_id)
      · rw [if_pos h]
        rfl
      · rw [if_neg h]
    refine ⟨?_, ?_, ?_, ?_, ?_⟩
    · rw [getOrder_eq_of_orders _ (d.setOrder { o with status := OrderStatus.expired, updated_at := some now })
        (orders_foldl_update _ _ _ _ _) o.id]
      exact hget1
    · rw [if_neg hnnil]
      rw [orderTransactions_eq_list _ _ hFtrans o.id]
      rw [filter_map_orderpres _ _ hFordpres o.id]
      refine Eq.trans (List.map_congr_left ?_) rfl
      intro t ht
      dsimp only
      have hm : t.transaction_id ∈ (d.orderTransactions o.id).map
          (fun t => t.transaction_id) :=
        List.mem_map_of_mem (fun t => t.transaction_id) ht
      rw [if_pos hm]
    · intro x hx
      constructor
      · rw [getOrder_eq_of_orders _ (d.setOrder { o with status := OrderStatus.expired, updated_at := some now })
          (orders_foldl_update _ _ _ _ _) x]
        exact getOrder_setOrder_ne d _ x (by simpa [hoid] using (fun hc => hx hc.symm))
      · rw [orderTransactions_eq_list _ _ hFtrans x]
        rw [filter_map_orderpres _ _ hFordpres x]
        refine Eq.trans (Eq.trans (List.map_congr_left ?_) (List.map_id _)) rfl
        intro t ht
        dsimp only
        have hnm : t.transaction_id ∉ (d.orderTransactions o.id).map
            (fun t => t.transaction_id) := by
          intro hmem
          obtain ⟨u, hu, hut⟩ := List.mem_map.mp hmem
          have hud : u ∈ d.transactions := List.mem_of_mem_filter hu
          have htd : t ∈ d.transactions := List.mem_of_mem_filter ht
          have htu : t = u := mem_txnid_unique d.transactions t u htx htd hud hut.symm
          have huz : u.order_id = o.id := by simpa using (List.mem_filter.mp hu).2
          have htz : t.order_id = x := by simpa using (List.mem_filter.mp ht).2
          rw [htu, huz] at htz
          exact hx htz.symm
        rw [if_neg hnm]
        rfl
    · rw [hFtrans, htid2]
      exact htx
    · rw [show (List.foldl (fun dd t => (update_transaction_status dd t.transaction_id
        .failed (some "Order expired") now).1)
        (d.setOrder { o with status := OrderStatus.expired, updated_at := some now })
        (d.orderTransactions o.id)).orders = _ from orders_foldl_update _ _ _ _ _]
      exact orders_map_id_setOrder d _

/-! ## C7 — the expiry reaper sweep -/

theorem find?_id_of_mem_nodup (l : List UserOrder) (o : UserOrder) (ho : o ∈ l)
    (hid : (l.map (fun x => x.id)).Nodup) : l.find? (fun x => x.id == o.id) = some o := by
  induction l with
  | nil => simp at ho
  | cons a t ih =>
    simp only [List.map_cons, List.nodup_cons] at hid
    rcases List.mem_cons.mp ho with h | h
    · subst h
      simp [List.find?_cons]
    · have hane : ¬ (a.id = o.id) := fun hc =>
        hid.1 (hc ▸ List.mem_map_of_mem (fun x => x.id) h)
      rw [List.find?_cons_of_neg _ (by simpa using hane)]
      exact ih h hid.2

theorem getOrder_of_mem_nodup (db : DB) (o : UserOrder) (ho : o ∈ db.orders)
    (hid : (db.orders.map (fun x => x.id)).Nodup) : db.getOrder o.id = some o := by
  unfold DB.getOrder
  exact find?_id_of_mem_nodup db.orders o ho hid

/-- The effect of a whole pass over a duplicate-free batch of orders that
are all present in the store: every listed order is expired with its
transactions written, every other key is untouched, and the id profiles
stay intact. -/
theorem cleanup_fold_spec (l : List UserOrder) (db : DB) (now : Nat)
    (hl : (l.map (fun o => o.id)).Nodup)
    (hin : ∀ o ∈ l, db.getOrder o.id = some o)
    (htx : (db.transactions.map (fun t => t.transaction_id)).Nodup) :
    (∀ x, (∀ o ∈ l, o.id ≠ x) →
        (l.foldl (fun d o => expireOne d o.id now) db).getOrder x = db.getOrder x
        ∧ (l.foldl (fun d o => expireOne d o.id now) db).orderTransactions x
            = db.orderTransactions x)
    ∧ (∀ o ∈ l,
        (l.foldl (fun d o => expireOne d o.id now) db).getOrder o.id
          = some { o with status := OrderStatus.expired, updated_at := some now }
        ∧ (if db.orderTransactions o.id = [] then
            ∃ t, (l.foldl (fun d o => expireOne d o.id now) db).orderTransactions o.id = [t]
              ∧ isAutoExpiryTxn o now t
           else (l.foldl (fun d o => expireOne d o.id now) db).orderTransactions o.id
             = (db.orderTransactions o.id).map (expireTxn now)))
    ∧ ((l.foldl (fun d o => expireOne d o.id now) db).transactions.map
        (fun t => t.transaction_id)).Nodup
    ∧ (l.foldl (fun d o => expireOne d o.id now) db).orders.map (fun x => x.id)
        = db.orders.map (fun x => x.id) := by
  induction l generalizing db with
  | nil =>
    refine ⟨fun x _ => ⟨rfl, rfl⟩, ?_, htx, rfl⟩
    intro o ho
    exact absurd ho (List.not_mem_nil o)
  | cons o rest ih =>
    simp only [List.map_cons, List.nodup_cons] at hl
    have ho : db.getOrder o.id = some o := hin o (List.mem_cons_self o rest)
    obtain ⟨he1, he2, he3, he4, he5⟩ := expireOne_effect db o now ho htx
    have hrestne : ∀ u ∈ rest, u.id ≠ o.id := by
      intro u hu hc
      refine hl.1 ?_
      rw [← hc]
      exact List.mem_map_of_mem (fun x => x.id) hu
    have hin2 : ∀ u ∈ rest, (expireOne db o.id now).getOrder u.id = some u := by
      intro u hu
      rw [(he3 u.id (hrestne u hu)).1]
      exact hin u (List.mem_cons_of_mem o hu)
    obtain ⟨ihframe, iheff, ihnodup, ihprof⟩ :=
      ih (expireOne db o.id now) hl.2 hin2 he4
    simp only [List.foldl_cons]
    refine ⟨?_, ?_, ihnodup, ihprof.trans he5⟩
    · intro x hx
      have hox : o.id ≠ x := hx o (List.mem_cons_self o rest)
      have hfr := ihframe x (fun u hu => hx u (List.mem_cons_of_mem o hu))
      exact ⟨hfr.1.trans (he3 x (Ne.symm hox)).1, hfr.2.trans (he3 x (Ne.symm hox)).2⟩
    · intro u hu
      rcases List.mem_cons.mp hu with h | h
      · subst h
        have hfr := ihframe u.id hrestne
        refine ⟨hfr.1.trans he1, ?_⟩
        by_cases hnil : db.orderTransactions u.id = []
        · rw [if_pos hnil]
          rw [if_pos hnil] at he2
          obtain ⟨t, ht1, ht2⟩ := he2
          exact ⟨t, hfr.2.trans ht1, ht2⟩
        · rw [if_neg hnil]
          rw [if_neg hnil] at he2
          exact hfr.2.trans he2
      · have hune := hrestne u h
        have hOT : (expireOne db o.id now).orderTransactions u.id
            = db.orderTransactions u.id := (he3 u.id hune).2
        have heq := iheff u h
        refine ⟨heq.1, ?_⟩
        have h2 := heq.2
        simp only [hOT] at h2
        exact h2

/-- C7: one reaper run selects exactly the stored orders that are PENDING
and were created more than `ORDER_EXPIRATION_SECONDS` before now; each
selected order is flipped to EXPIRED with the update timestamp stamped,
its existing transactions are all updated in place to `failed` with the
expiry note, and a fresh `failed` system transaction is created only when
the order had none; every other order and its transactions are untouched,
and running the sweep again changes nothing because the status filter no
longer selects the expired rows. -/
theorem C7_reaper_sweep (db : DB) (now : Nat)
    (hid : (db.orders.map (fun o => o.id)).Nodup)
    (htx : (db.transactions.map (fun t => t.transaction_id)).Nodup) :
    (∀ o : UserOrder, eligibleForExpiry o now = true
        ↔ (o.status = OrderStatus.pending
          ∧ o.created_at + ORDER_EXPIRATION_SECONDS < now))
    ∧ (∀ o ∈ db.orders, eligibleForExpiry o now = false →
        (cleanup_expired_orders db now).getOrder o.id = db.getOrder o.id
        ∧ (cleanup_expired_orders db now).orderTransactions o.id
            = db.orderTransactions o.id)
    ∧ (∀ o ∈ db.orders, eligibleForExpiry o now = true →
        (cleanup_expired_orders db now).getOrder o.id
          = some { o with status := OrderStatus.expired, updated_at := some now }
        ∧ (if db.orderTransactions o.id = [] then
            ∃ t, (cleanup_expired_orders db now).orderTransactions o.id = [t]
              ∧ isAutoExpiryTxn o now t
           else (cleanup_expired_orders db now).orderTransactions o.id
             = (db.orderTransactions o.id).map (expireTxn now)))
    ∧ cleanup_expired_orders (cleanup_expired_orders db now) now
        = cleanup_expired_orders db now := by
  have hcl : cleanup_expired_orders db now
      = (db.orders.filter (fun o => eligibleForExpiry o now)).foldl
        (fun d o => expireOne d o.id now) db := rfl
  have hlid : ((db.orders.filter (fun o => eligibleForExpiry o now)).map
      (fun o => o.id)).Nodup :=
    hid.sublist ((List.filter_sublist db.orders).map _)
  have hin : ∀ o ∈ db.orders.filter (fun o => eligibleForExpiry o now),
      db.getOrder o.id = some o := fun o hoo =>
    getOrder_of_mem_nodup db o (List.mem_of_mem_filter hoo) hid
  obtain ⟨hframe, heff, hnodup, hprof⟩ := cleanup_fold_spec
    (db.orders.filter (fun o => eligibleForExpiry o now)) db now hlid hin htx
  have hneof : ∀ o : UserOrder, eligibleForExpiry o now = false → o ∈ db.orders →
      ∀ u ∈ db.orders.filter (fun x => eligibleForExpiry x now), u.id ≠ o.id := by
    intro o helig ho u hu hc
    have hud : u ∈ db.orders := List.mem_of_mem_filter hu
    have huo : u = o := List.inj_on_of_nodup_map hid hud ho hc
    have hut : eligibleForExpiry u now = true := by
      simpa using (List.mem_filter.mp hu).2
    rw [huo, helig] at hut
    exact Bool.noConfusion hut
  refine ⟨?_, ?_, ?_, ?_⟩
  · intro o
    simp [eligibleForExpiry]
  · intro o ho helig
    rw [hcl]
    exact hframe o.id (hneof o helig ho)
  · intro o ho helig
    rw [hcl]
    exact heff o (List.mem_filter.mpr ⟨ho, by simpa using helig⟩)
  · have hidX : ((cleanup_expired_orders db now).orders.map (fun o => o.id)).Nodup := by
      rw [hcl, hprof]
      exact hid
    have hnone : ∀ u ∈ (cleanup_expired_orders db now).orders,
        eligibleForExpiry u now = false := by
      intro u hu
      have huX : (cleanup_expired_orders db now).getOrder u.id = some u :=
        getOrder_of_mem_nodup _ u hu hidX
      have hu_id : u.id ∈ db.orders.map (fun o => o.id) := by
        rw [← hprof]
        rw [hcl] at hu
        exact List.mem_map_of_mem (fun o : UserOrder => o.id) hu
      obtain ⟨o, ho, hoid0⟩ := List.mem_map.mp hu_id
      have hoid : o.id = u.id := hoid0
      rw [← hoid] at huX
      by_cases helig : eligibleForExpiry o now = true
      · have h3 := heff o (List.mem_filter.mpr ⟨ho, by simpa using helig⟩)
        have hXo : (cleanup_expired_orders db now).getOrder o.id
            = some { o with status := OrderStatus.expired, updated_at := some now } := by
          rw [hcl]
          exact h3.1
        rw [huX] at hXo
        rw [Option.some.inj hXo]
        rfl
      · have helig2 : eligibleForExpiry o now = false := Bool.eq_false_iff.mpr helig
        have h2 := hframe o.id (hneof o helig2 ho)
        have hXo : (cleanup_expired_orders db now).getOrder o.id = db.getOrder o.id := by
          rw [hcl]
          exact h2.1
        rw [huX, getOrder_of_mem_nodup db o ho hid] at hXo
        rw [Option.some.inj hXo]
        exact helig2
    have hfilX : (cleanup_expired_orders db now).orders.filter
        (fun o => eligibleForExpiry o now) = [] :=
      List.filter_eq_nil_iff.mpr (fun a ha hc => by
        rw [hnone a ha] at hc
        exact Bool.noConfusion hc)
    rw [show cleanup_expired_orders (cleanup_expired_orders db now) now
      = ((cleanup_expired_orders db now).orders.filter
          (fun o => eligibleForExpiry o now)).foldl
        (fun d o => expireOne d o.id now) (cleanup_expired_orders db now) from rfl]
    rw [hfilX]
    rfl

theorem C7_reaper_sweep_witness :
    ((sampleDB.orders.map (fun o => o.id)).Nodup
      ∧ (sampleDB.transactions.map (fun t => t.transaction_id)).Nodup)
    ∧ (eligibleForExpiry sampleOrder 1000 = true
        ↔ (sampleOrder.status = OrderStatus.pending
          ∧ sampleOrder.created_at + ORDER_EXPIRATION_SECONDS < 1000))
    ∧ cleanup_expired_orders (cleanup_expired_orders sampleDB 1000) 1000
        = cleanup_expired_orders sampleDB 1000 :=
  ⟨⟨by decide, by decide⟩,
    (C7_reaper_sweep sampleDB 1000 (by decide) (by decide)).1 sampleOrder,
    (C7_reaper_sweep sampleDB 1000 (by decide) (by decide)).2.2.2⟩

end NexTicket
